import Mathlib

/-!
The identity and access-control subsystem of demo_login.

A shallow embedding of the Go sources under `internal/` (models, repository
interface, services, middleware, handlers) together with the properties of
the specification that are settled against it.

Conventions of the embedding.

* A Go pointer result that may be `nil` is an `Option`; a Go `error` result is
  an `Option Error` (`none` is `nil`), and a `(value, error)` pair whose value
  is only meaningful when the error is `nil` is an `Except Error _`.
* `time.Time` is the number of nanoseconds since the zero instant (a `Nat`).
* The `UserRepository` interface is a record of functions over an abstract
  store `σ`; lookups read the store, `Create`/`Update`/`Delete` return the next
  store.  Every service method returns, next to its Go results, the final
  store and the list of repository calls it made, in order.
* Third-party libraries (bcrypt, HMAC, the JWT wire encoding, uuid) are
  parameters.  The control flow of `golang-jwt/jwt/v5` that the service relies
  on (`ParseWithClaims`, the claims validator) is written out.
* Logging is not modelled.
-/

namespace DemoLogin

/-! ## Basic types -/

/-- A `uuid.UUID` (16 bytes) read as a number; `0` is `uuid.Nil`. -/
abbrev UUID := Nat

/-- A `time.Time`, in nanoseconds since the zero instant. -/
abbrev Time := Nat

/-- One second (`time.Second`), in nanoseconds. -/
def Second : Nat := 1000000000

/-- One hour (`time.Hour`), in nanoseconds. -/
def Hour : Nat := 3600 * Second

/-- Go `error` values: the three sentinels declared in `internal/services`
and any other error (storage, hashing, token library), kept by its message. -/
inductive Error where
  | ErrInvalidCredentials
  | ErrUserExists
  | ErrUserNotFound
  | other (msg : String)
  deriving DecidableEq, Repr

/-- The message of an error (`err.Error()`). -/
def Error.message : Error → String
  | .ErrInvalidCredentials => "invalid credentials"
  | .ErrUserExists => "user already exists"
  | .ErrUserNotFound => "user not found"
  | .other msg => msg

/-! ## internal/models/user.go -/

/-- The `models.User` record. -/
structure User where
  ID : UUID
  Username : String
  Email : String
  Password : String
  FirstName : String
  LastName : String
  Role : String
  CreatedAt : Time
  UpdatedAt : Time
  deriving DecidableEq, Repr

/-- The `models.UserResponse` record. -/
structure UserResponse where
  ID : UUID
  Username : String
  Email : String
  FirstName : String
  LastName : String
  Role : String
  CreatedAt : Time
  deriving DecidableEq, Repr

/-- The two bcrypt entry points used by the model, at `bcrypt.DefaultCost`.
`CompareHashAndPassword hash password` is `none` when the library returns a
`nil` error. -/
structure Bcrypt where
  GenerateFromPassword : String → Except Error String
  CompareHashAndPassword : String → String → Option Error

/-- The method `User.HashPassword`: replaces the password field by its hash. -/
def User.HashPassword (b : Bcrypt) (u : User) : Except Error User :=
  match b.GenerateFromPassword u.Password with
  | .error err => .error err
  | .ok hashedPassword => .ok { u with Password := hashedPassword }

/-- The method `User.CheckPassword`: `err == nil` of the bcrypt comparison. -/
def User.CheckPassword (b : Bcrypt) (u : User) (password : String) : Bool :=
  (b.CompareHashAndPassword u.Password password).isNone

/-- The method `User.ToUserResponse`. -/
def User.ToUserResponse (u : User) : UserResponse :=
  { ID := u.ID
    Username := u.Username
    Email := u.Email
    FirstName := u.FirstName
    LastName := u.LastName
    Role := u.Role
    CreatedAt := u.CreatedAt }

/-! ## internal/repository/user_repository.go (the interface) -/

/-- A call made on the `UserRepository` interface, with its arguments. -/
inductive RepoCall where
  | Create (user : User)
  | FindByID (id : UUID)
  | FindByUsername (username : String)
  | FindByEmail (email : String)
  | Update (user : User)
  | Delete (id : UUID)
  | List (page size : Int)
  deriving DecidableEq, Repr

/-- The `UserRepository` interface over a store `σ`.  A lookup returns
`.ok none` for "not found" and `.error _` for a storage error.  `Create` and
`Update` receive a pointer: on success they return the record as the store
left it (identifier and timestamps filled in). -/
structure UserRepository (σ : Type) where
  Create : σ → User → Except Error User × σ
  FindByID : σ → UUID → Except Error (Option User)
  FindByUsername : σ → String → Except Error (Option User)
  FindByEmail : σ → String → Except Error (Option User)
  Update : σ → User → Except Error User × σ
  Delete : σ → UUID → Option Error × σ
  List : σ → Int → Int → Except Error (List User × Int)

/-- The outcome of running a service method: its Go results, the store it
leaves and the repository calls it made, oldest first. -/
structure Run (σ : Type) (α : Type) where
  result : α
  store : σ
  calls : List RepoCall

/-! ## github.com/golang-jwt/jwt/v5, as used by the service -/

/-- The custom claims `services.Claims`: `user_id`, `role` and the three
registered date claims the service sets (`exp`, `iat`, `nbf`); a date that is
absent from a token is `none`. -/
structure Claims where
  UserID : String
  Role : String
  ExpiresAt : Option Time
  IssuedAt : Option Time
  NotBefore : Option Time
  deriving DecidableEq, Repr

/-- The signing methods registered by the library. -/
inductive SigningMethod where
  | HS256 | HS384 | HS512
  | RS256 | RS384 | RS512
  | PS256 | PS384 | PS512
  | ES256 | ES384 | ES512
  | EdDSA
  | unsecured
  deriving DecidableEq, Repr

/-- The `alg` header value of a method (`SigningMethod.Alg`). -/
def SigningMethod.Alg : SigningMethod → String
  | .HS256 => "HS256" | .HS384 => "HS384" | .HS512 => "HS512"
  | .RS256 => "RS256" | .RS384 => "RS384" | .RS512 => "RS512"
  | .PS256 => "PS256" | .PS384 => "PS384" | .PS512 => "PS512"
  | .ES256 => "ES256" | .ES384 => "ES384" | .ES512 => "ES512"
  | .EdDSA => "EdDSA"
  | .unsecured => "none"

/-- The methods the library registers under their `alg` value. -/
def registeredMethods : List SigningMethod :=
  [.HS256, .HS384, .HS512, .RS256, .RS384, .RS512, .PS256, .PS384, .PS512,
    .ES256, .ES384, .ES512, .EdDSA, .unsecured]

/-- Looks a method up by the `alg` header value (`jwt.GetSigningMethod`). -/
def GetSigningMethod (alg : String) : Option SigningMethod :=
  registeredMethods.find? (fun method => method.Alg == alg)

/-- The type assertion `token.Method.(*jwt.SigningMethodHMAC)`: it succeeds
exactly for the three methods of that Go type. -/
def SigningMethod.isHMAC : SigningMethod → Bool
  | .HS256 | .HS384 | .HS512 => true
  | _ => false

/-- A token string.  A string the library can split into three segments and
decode is given by its first two segments as they stand (`text`, the part
that is signed), the `alg` header value and the claims these two segments
decode to, and the decoded signature bytes.  Any other string (the empty
string among them) is `unparsable`. -/
inductive TokenString where
  | unparsable (raw : String)
  | jws (text : String) (alg : String) (claims : Claims) (signature : String)
  deriving DecidableEq, Repr

/-- The parts of the token library that stay parameters: the keyed hash of
each HMAC method and the text that is signed (the first two segments of the
compact form, as produced from a header value and claims). -/
structure JWTLib where
  hmac : SigningMethod → String → String → String
  signingString : String → Claims → String

/-- The dynamic type of `jwt.Token.Claims`, as far as the middleware
distinguishes it: a `*services.Claims` or anything else. -/
inductive ClaimsValue where
  | servicesClaims (c : Claims)
  | otherType
  deriving DecidableEq, Repr

/-- The fields of a parsed `jwt.Token` the code reads. -/
structure Token where
  Method : SigningMethod
  Claims : ClaimsValue
  Signature : String
  Valid : Bool
  deriving DecidableEq, Repr

/-- Builds a `*jwt.NumericDate`: the instant truncated to
`jwt.TimePrecision`, one second. -/
def NewNumericDate (t : Time) : Time :=
  t - t % Second

/-- The method `Token.SignedString` for a token created by
`jwt.NewWithClaims method claims` and a `[]byte` key.  Only HMAC methods accept
such a key. -/
def SignedString (lib : JWTLib) (method : SigningMethod) (claims : Claims) (key : String) :
    Except Error TokenString :=
  if method.isHMAC then
    .ok (.jws (lib.signingString method.Alg claims) method.Alg claims
      (lib.hmac method key (lib.signingString method.Alg claims)))
  else
    .error (.other "key is of invalid type")

/-- The default claims validator (`Validator.Validate`) on the registered
claims: `exp`, when present, must be strictly after `now`; `nbf`, when
present, must not be after `now`; `iat` is not checked by default. -/
def validateClaims (now : Time) (c : Claims) : Option Error :=
  let expired : Bool :=
    match c.ExpiresAt with
    | none => false
    | some exp => !(decide (now < exp))
  let notYet : Bool :=
    match c.NotBefore with
    | none => false
    | some nbf => decide (now < nbf)
  if expired then some (.other "token has invalid claims: token is expired")
  else if notYet then some (.other "token has invalid claims: token is not valid yet")
  else none

/-- The function `Parser.ParseWithClaims` with the default parser options: decode the
segments and look the method up, ask `keyFunc` for the key, verify the
signature with the method, validate the claims at `now`, and mark the token
valid. -/
def ParseWithClaims (lib : JWTLib) (now : Time) (tokenString : TokenString)
    (keyFunc : SigningMethod → Except Error String) : Except Error Token :=
  match tokenString with
  | .unparsable _ => .error (.other "token is malformed")
  | .jws text alg claims signature =>
    match GetSigningMethod alg with
    | none => .error (.other "token is unverifiable: signing method (alg) is unavailable")
    | some method =>
      match keyFunc method with
      | .error err =>
        .error (.other ("token is unverifiable: error while executing keyfunc: " ++ err.message))
      | .ok key =>
        -- `token.Method.Verify(text, token.Signature, key)`
        if method.isHMAC && lib.hmac method key text == signature then
          match validateClaims now claims with
          | some err => .error err
          | none =>
            .ok { Method := method, Claims := .servicesClaims claims,
                  Signature := signature, Valid := true }
        else
          .error (.other "token signature is invalid")

/-! ## internal/services/auth_service.go -/

/-- The `authService` struct: its repository, the configured `JWTSecret`,
and the libraries it calls. -/
structure authService (σ : Type) where
  userRepo : UserRepository σ
  JWTSecret : String
  bcrypt : Bcrypt
  jwt : JWTLib
  uuidString : UUID → String

/-- The Go results of `Login`: `(string, *models.UserResponse, error)`. -/
abbrev LoginResult := TokenString × Option UserResponse × Option Error

/-- The empty string as a token string. -/
def emptyToken : TokenString := .unparsable ""

/-- The composite literal `Claims{...}` of `Login` (lines 125-133).
`clock k` is what the `k`-th call of `time.Now()` returns (`k = 0, 1, 2`, in
the order the literal evaluates them: for `ExpiresAt`, `IssuedAt`, `NotBefore`). -/
def authService.loginClaims {σ : Type} (s : authService σ) (clock : Nat → Time)
    (user : User) : Claims :=
  { UserID := s.uuidString user.ID
    Role := user.Role
    ExpiresAt := some (NewNumericDate (clock 0 + 24 * Hour))
    IssuedAt := some (NewNumericDate (clock 1))
    NotBefore := some (NewNumericDate (clock 2)) }

/-- Lines 114-144 of `Login`, once `user` holds the outcome of the lookups. -/
def authService.loginWith {σ : Type} (s : authService σ) (clock : Nat → Time)
    (user : Option User) (password : String) : LoginResult :=
  match user with
  | none => (emptyToken, none, some .ErrInvalidCredentials)
  | some user =>
    if !user.CheckPassword s.bcrypt password then
      (emptyToken, none, some .ErrInvalidCredentials)
    else
      let claims : Claims := s.loginClaims clock user
      match SignedString s.jwt .HS256 claims s.JWTSecret with
      | .error err => (emptyToken, none, some err)
      | .ok tokenString => (tokenString, some user.ToUserResponse, none)

/-- The method `authService.Login`. -/
def authService.Login {σ : Type} (s : authService σ) (clock : Nat → Time) (st : σ)
    (usernameOrEmail password : String) : Run σ LoginResult :=
  match s.userRepo.FindByEmail st usernameOrEmail with
  | .error err => ⟨(emptyToken, none, some err), st, [.FindByEmail usernameOrEmail]⟩
  | .ok (some user) =>
    ⟨s.loginWith clock (some user) password, st, [.FindByEmail usernameOrEmail]⟩
  | .ok none =>
    match s.userRepo.FindByUsername st usernameOrEmail with
    | .error err =>
      ⟨(emptyToken, none, some err), st,
        [.FindByEmail usernameOrEmail, .FindByUsername usernameOrEmail]⟩
    | .ok user =>
      ⟨s.loginWith clock user password, st,
        [.FindByEmail usernameOrEmail, .FindByUsername usernameOrEmail]⟩

/-- The method `authService.ValidateToken`; `now` is the instant the library's
validator reads. -/
def authService.ValidateToken {σ : Type} (s : authService σ) (now : Time)
    (tokenString : TokenString) : Except Error Token :=
  ParseWithClaims s.jwt now tokenString (fun method =>
    if !method.isHMAC then .error (.other "unexpected signing method")
    else .ok s.JWTSecret)

/-- The method `authService.Register`. -/
def authService.Register {σ : Type} (s : authService σ) (st : σ)
    (username email password firstName lastName : String) :
    Run σ (Option UserResponse × Option Error) :=
  match s.userRepo.FindByUsername st username with
  | .error err => ⟨(none, some err), st, [.FindByUsername username]⟩
  | .ok (some _) => ⟨(none, some .ErrUserExists), st, [.FindByUsername username]⟩
  | .ok none =>
    match s.userRepo.FindByEmail st email with
    | .error err => ⟨(none, some err), st, [.FindByUsername username, .FindByEmail email]⟩
    | .ok (some _) =>
      ⟨(none, some .ErrUserExists), st, [.FindByUsername username, .FindByEmail email]⟩
    | .ok none =>
      let user : User :=
        { ID := 0
          Username := username
          Email := email
          Password := password
          FirstName := firstName
          LastName := lastName
          Role := "user"
          CreatedAt := 0
          UpdatedAt := 0 }
      match user.HashPassword s.bcrypt with
      | .error err => ⟨(none, some err), st, [.FindByUsername username, .FindByEmail email]⟩
      | .ok user =>
        match s.userRepo.Create st user with
        | (.error err, st1) =>
          ⟨(none, some err), st1,
            [.FindByUsername username, .FindByEmail email, .Create user]⟩
        | (.ok created, st1) =>
          ⟨(some created.ToUserResponse, none), st1,
            [.FindByUsername username, .FindByEmail email, .Create user]⟩

/-! ## internal/services/user_service.go -/

/-- The `userService` struct: its repository and the hashing library. -/
structure userService (σ : Type) where
  userRepo : UserRepository σ
  bcrypt : Bcrypt

/-- The method `userService.GetUserByID`. -/
def userService.GetUserByID {σ : Type} (s : userService σ) (st : σ) (id : UUID) :
    Run σ (Option UserResponse × Option Error) :=
  match s.userRepo.FindByID st id with
  | .error err => ⟨(none, some err), st, [.FindByID id]⟩
  | .ok none => ⟨(none, some .ErrUserNotFound), st, [.FindByID id]⟩
  | .ok (some user) => ⟨(some user.ToUserResponse, none), st, [.FindByID id]⟩

/-- The method `userService.UpdateUser`. -/
def userService.UpdateUser {σ : Type} (s : userService σ) (st : σ) (id : UUID)
    (firstName lastName : String) : Run σ (Option UserResponse × Option Error) :=
  match s.userRepo.FindByID st id with
  | .error err => ⟨(none, some err), st, [.FindByID id]⟩
  | .ok none => ⟨(none, some .ErrUserNotFound), st, [.FindByID id]⟩
  | .ok (some user) =>
    let user : User := if firstName ≠ "" then { user with FirstName := firstName } else user
    let user : User := if lastName ≠ "" then { user with LastName := lastName } else user
    match s.userRepo.Update st user with
    | (.error err, st1) => ⟨(none, some err), st1, [.FindByID id, .Update user]⟩
    | (.ok saved, st1) =>
      ⟨(some saved.ToUserResponse, none), st1, [.FindByID id, .Update user]⟩

/-- The method `userService.DeleteUser`. -/
def userService.DeleteUser {σ : Type} (s : userService σ) (st : σ) (id : UUID) :
    Run σ (Option Error) :=
  match s.userRepo.FindByID st id with
  | .error err => ⟨some err, st, [.FindByID id]⟩
  | .ok none => ⟨some .ErrUserNotFound, st, [.FindByID id]⟩
  | .ok (some _) =>
    match s.userRepo.Delete st id with
    | (err, st1) => ⟨err, st1, [.FindByID id, .Delete id]⟩

/-- The method `userService.ListUsers`; the results are the page, the total
and the error. -/
def userService.ListUsers {σ : Type} (s : userService σ) (st : σ) (page size : Int) :
    Run σ (List UserResponse × Int × Option Error) :=
  let page : Int := if page < 1 then 1 else page
  let size : Int := if size < 1 then 10 else size
  match s.userRepo.List st page size with
  | .error err => ⟨([], 0, some err), st, [.List page size]⟩
  | .ok (users, total) =>
    ⟨(users.map User.ToUserResponse, total, none), st, [.List page size]⟩

/-- The method `userService.ChangePassword`. -/
def userService.ChangePassword {σ : Type} (s : userService σ) (st : σ) (id : UUID)
    (oldPassword newPassword : String) : Run σ (Option Error) :=
  match s.userRepo.FindByID st id with
  | .error err => ⟨some err, st, [.FindByID id]⟩
  | .ok none => ⟨some .ErrUserNotFound, st, [.FindByID id]⟩
  | .ok (some user) =>
    if !user.CheckPassword s.bcrypt oldPassword then
      ⟨some .ErrInvalidCredentials, st, [.FindByID id]⟩
    else
      let user : User := { user with Password := newPassword }
      match user.HashPassword s.bcrypt with
      | .error err => ⟨some err, st, [.FindByID id]⟩
      | .ok user =>
        match s.userRepo.Update st user with
        | (.error err, st1) => ⟨some err, st1, [.FindByID id, .Update user]⟩
        | (.ok _, st1) => ⟨none, st1, [.FindByID id, .Update user]⟩

/-! ## gin, as used by the middleware and the handlers -/

/-- A value of a JSON response body. -/
inductive JSONValue where
  | str (s : String)
  | token (t : TokenString)
  | user (u : Option UserResponse)
  deriving DecidableEq, Repr

/-- A response written with `c.JSON`: the status code and the `gin.H` map,
as its list of entries. -/
structure Response where
  status : Nat
  body : List (String × JSONValue)
  deriving DecidableEq, Repr

/-- A value stored in the request context (`any`): a string, a
`uuid.UUID`, or a value of some other type. -/
inductive Value where
  | str (s : String)
  | uuid (id : UUID)
  | otherType (description : String)
  deriving DecidableEq, Repr

/-- The part of `gin.Context` the code touches: the request headers, the
`Keys` map, the response written so far, whether `Abort` was called and whether
`Next` was called. -/
structure Context where
  Header : List (String × String)
  Keys : List (String × Value)
  response : Option Response
  aborted : Bool
  nextCalled : Bool
  deriving DecidableEq, Repr

/-- The method `c.GetHeader`: the value of a request header, `""` when it is absent. -/
def Context.GetHeader (c : Context) (key : String) : String :=
  (c.Header.lookup key).getD ""

/-- The method `c.JSON`: writes the status and the body. -/
def Context.JSON (c : Context) (code : Nat) (obj : List (String × JSONValue)) : Context :=
  { c with response := some ⟨code, obj⟩ }

/-- The method `c.Abort`: the pending handlers will not be called. -/
def Context.Abort (c : Context) : Context :=
  { c with aborted := true }

/-- The method `c.Next`: runs the pending handlers. -/
def Context.Next (c : Context) : Context :=
  { c with nextCalled := true }

/-- The method `c.Set`: stores a value under a key, replacing an older one. -/
def Context.Set (c : Context) (key : String) (value : Value) : Context :=
  { c with Keys := (key, value) :: c.Keys.filter (fun kv => kv.1 != key) }

/-- The method `c.Get`: the value stored under a key, if any. -/
def Context.Get (c : Context) (key : String) : Option Value :=
  c.Keys.lookup key

/-- The pending handlers run: `Next` was called on a context that was not
aborted. -/
def Context.proceeds (c : Context) : Bool :=
  c.nextCalled && !c.aborted

/-- The standard status codes used. -/
def StatusOK : Nat := 200
/-- Status 400. -/
def StatusBadRequest : Nat := 400
/-- Status 401. -/
def StatusUnauthorized : Nat := 401
/-- Status 403. -/
def StatusForbidden : Nat := 403
/-- Status 500. -/
def StatusInternalServerError : Nat := 500

/-- The function `strings.SplitN(s, " ", 2)` on the characters of `s`: the text before the
first space and the text after it, or `s` alone when it has no space. -/
def splitFirstSpace : List Char → List (List Char)
  | [] => [[]]
  | c :: cs =>
    if c = ' ' then [[], cs]
    else
      match splitFirstSpace cs with
      | [first, rest] => [c :: first, rest]
      | _ => [c :: cs]

/-- The function `strings.SplitN(s, " ", 2)`. -/
def SplitN2 (s : String) : List String :=
  (splitFirstSpace s.data).map String.mk

/-! ## internal/middleware/auth_middleware.go -/

/-- The outcome of running a middleware or handler that holds an
`AuthService`: the context it leaves and the arguments of the `ValidateToken`
calls it made, oldest first. -/
structure GuardRun where
  ctx : Context
  validateCalls : List String
  deriving DecidableEq, Repr

/-- The handler returned by `AuthMiddleware.JWTAuthMiddleware`.
`ValidateToken` is the method of the `AuthService` interface the middleware
holds; `uuidParse` is `uuid.Parse`. -/
def JWTAuthMiddleware (ValidateToken : String → Except Error Token)
    (uuidParse : String → Option UUID) (c : Context) : GuardRun :=
  let authHeader := c.GetHeader "Authorization"
  if authHeader = "" then
    ⟨(c.JSON StatusUnauthorized [("error", .str "authorization header is required")]).Abort, []⟩
  else
    match SplitN2 authHeader with
    | [scheme, tokenString] =>
      if scheme = "Bearer" then
        match ValidateToken tokenString with
        | .error _ =>
          ⟨(c.JSON StatusUnauthorized [("error", .str "invalid token")]).Abort, [tokenString]⟩
        | .ok token =>
          match token.Claims, token.Valid with
          | .servicesClaims claims, true =>
            match uuidParse claims.UserID with
            | none =>
              ⟨(c.JSON StatusUnauthorized [("error", .str "invalid user ID in token")]).Abort,
                [tokenString]⟩
            | some userID =>
              ⟨((c.Set "userID" (.uuid userID)).Set "userRole" (.str claims.Role)).Next,
                [tokenString]⟩
          | _, _ =>
            ⟨(c.JSON StatusUnauthorized [("error", .str "invalid token claims")]).Abort,
              [tokenString]⟩
      else
        ⟨(c.JSON StatusUnauthorized
            [("error", .str "invalid authorization header format")]).Abort, []⟩
    | _ =>
      ⟨(c.JSON StatusUnauthorized
          [("error", .str "invalid authorization header format")]).Abort, []⟩

/-- The handler returned by `AuthMiddleware.AdminRequired`. -/
def AdminRequired (c : Context) : Context :=
  match c.Get "userRole" with
  | none => (c.JSON StatusUnauthorized [("error", .str "unauthorized")]).Abort
  | some role =>
    if role ≠ .str "admin" then
      (c.JSON StatusForbidden [("error", .str "admin access required")]).Abort
    else
      c.Next

/-! ## internal/handlers/auth.go -/

/-- The body of a login request. -/
structure LoginRequest where
  UsernameOrEmail : String
  Password : String
  deriving DecidableEq, Repr

/-- The handler `AuthHandler.Login`.  The argument `bound` is the outcome of
`c.ShouldBindJSON(&req)`: the request, or the message of the binding error;
`Login` is the method of the `AuthService` interface the handler holds. -/
def AuthHandler.Login (Login : String → String → LoginResult)
    (bound : Except String LoginRequest) (c : Context) : Context :=
  match bound with
  | .error msg => c.JSON StatusBadRequest [("error", .str msg)]
  | .ok req =>
    match Login req.UsernameOrEmail req.Password with
    | (_, _, some err) =>
      if err = .ErrInvalidCredentials then
        c.JSON StatusUnauthorized [("error", .str "invalid username/email or password")]
      else
        c.JSON StatusInternalServerError [("error", .str "failed to login")]
    | (token, userResponse, none) =>
      c.JSON StatusOK
        [("message", .str "login successful"), ("token", .token token),
          ("user", .user userResponse)]

/-- The handler `AuthHandler.ValidateToken`. -/
def AuthHandler.ValidateToken (ValidateToken : String → Except Error Token)
    (c : Context) : GuardRun :=
  let authHeader := c.GetHeader "Authorization"
  if authHeader = "" then
    ⟨c.JSON StatusUnauthorized [("error", .str "authorization header is required")], []⟩
  else
    match SplitN2 authHeader with
    | [scheme, tokenString] =>
      if scheme = "Bearer" then
        match ValidateToken tokenString with
        | .error _ => ⟨c.JSON StatusUnauthorized [("error", .str "invalid token")], [tokenString]⟩
        | .ok token =>
          if !token.Valid then
            ⟨c.JSON StatusUnauthorized [("error", .str "invalid token")], [tokenString]⟩
          else
            ⟨c.JSON StatusOK [("message", .str "token is valid")], [tokenString]⟩
      else
        ⟨c.JSON StatusUnauthorized [("error", .str "invalid authorization header format")], []⟩
    | _ =>
      ⟨c.JSON StatusUnauthorized [("error", .str "invalid authorization header format")], []⟩

/-! ## A small in-memory instance, used to run the model on concrete inputs -/

/-- A store that keeps the records in a list, in insertion order. -/
def memoryRepo : UserRepository (List User) where
  Create st u :=
    let created : User := if u.ID = 0 then { u with ID := st.length + 1 } else u
    (.ok created, st ++ [created])
  FindByID st id := .ok (st.find? (fun u => u.ID == id))
  FindByUsername st username := .ok (st.find? (fun u => u.Username == username))
  FindByEmail st email := .ok (st.find? (fun u => u.Email == email))
  Update st u := (.ok u, st.map (fun v => if v.ID = u.ID then u else v))
  Delete st id := (none, st.filter (fun u => u.ID != id))
  List st page size :=
    .ok ((st.drop ((page - 1) * size).toNat).take size.toNat, (st.length : Int))

/-- A stand-in for bcrypt whose hash of `p` is `"hash:" ++ p`. -/
def sampleBcrypt : Bcrypt where
  GenerateFromPassword password := .ok ("hash:" ++ password)
  CompareHashAndPassword hashedPassword password :=
    if hashedPassword = "hash:" ++ password then none
    else some (.other "hashedPassword is not the hash of the given password")

/-- A stand-in for the keyed hash and the wire encoding. -/
def sampleJWT : JWTLib where
  hmac method key text := method.Alg ++ "(" ++ key ++ "," ++ text ++ ")"
  signingString alg claims := alg ++ "." ++ claims.UserID ++ "." ++ claims.Role

/-- An `authService` over the in-memory store. -/
def sampleAuth : authService (List User) where
  userRepo := memoryRepo
  JWTSecret := "secret"
  bcrypt := sampleBcrypt
  jwt := sampleJWT
  uuidString id := toString id

/-- A `userService` over the in-memory store. -/
def sampleUsers : userService (List User) where
  userRepo := memoryRepo
  bcrypt := sampleBcrypt

/-- A stored record: user `alice`, whose password is `secret1`. -/
def alice : User :=
  { ID := 1
    Username := "alice"
    Email := "alice@x.com"
    Password := "hash:secret1"
    FirstName := "Alice"
    LastName := "A"
    Role := "user"
    CreatedAt := 5
    UpdatedAt := 5 }

/-- A stored record whose email is the text `shared`; its password is `pw-carol`. -/
def carol : User :=
  { ID := 2
    Username := "carol"
    Email := "shared"
    Password := "hash:pw-carol"
    FirstName := "Carol"
    LastName := "C"
    Role := "user"
    CreatedAt := 6
    UpdatedAt := 6 }

/-- A stored record whose username is the text `shared`; its password is `pw-dave`. -/
def dave : User :=
  { ID := 3
    Username := "shared"
    Email := "dave@x.com"
    Password := "hash:pw-dave"
    FirstName := "Dave"
    LastName := "D"
    Role := "user"
    CreatedAt := 7
    UpdatedAt := 7 }

/-- A repository whose email lookup fails with a storage error and whose
other methods are those of the in-memory store. -/
def failingEmailRepo : UserRepository (List User) :=
  { memoryRepo with FindByEmail := fun _ _ => .error (.other "connection refused") }

/-- An `authService` over the repository whose email lookup fails. -/
def failingEmailAuth : authService (List User) :=
  { sampleAuth with userRepo := failingEmailRepo }

/-- A clock that stands still at instant `t`. -/
def fixedClock (t : Time) : Nat → Time := fun _ => t

/-- A request context with the given headers and nothing else set. -/
def request (headers : List (String × String)) : Context :=
  { Header := headers, Keys := [], response := none, aborted := false, nextCalled := false }

/-- The claims of a sample token: not valid before instant 10, expiring at
instant 100. -/
def sampleClaims : Claims :=
  { UserID := "1", Role := "admin", ExpiresAt := some 100, IssuedAt := some 10,
    NotBefore := some 10 }

/-- A token whose header declares `HS256` and whose signature is the `HS256`
keyed hash of its first two segments under the secret of `sampleAuth`. -/
def hs256Token : TokenString :=
  .jws (sampleJWT.signingString "HS256" sampleClaims) "HS256" sampleClaims
    (sampleJWT.hmac .HS256 "secret" (sampleJWT.signingString "HS256" sampleClaims))

/-- A token whose header declares `HS384` and whose signature is the `HS384`
keyed hash of its first two segments under the secret of `sampleAuth`. -/
def hs384Token : TokenString :=
  .jws (sampleJWT.signingString "HS384" sampleClaims) "HS384" sampleClaims
    (sampleJWT.hmac .HS384 "secret" (sampleJWT.signingString "HS384" sampleClaims))

/-- A token whose header declares `RS256`. -/
def rs256Token : TokenString :=
  .jws (sampleJWT.signingString "RS256" sampleClaims) "RS256" sampleClaims "any signature"

/-- A clock whose first reading is the last nanosecond of second
`63900000000` and whose later readings are the first nanosecond of the next
second. -/
def straddlingClock : Nat → Time :=
  fun k => if k = 0 then 63900000000999999999 else 63900000001000000000

/-- A clock whose first two readings are the last nanosecond of second
`63900000000` and whose third reading is the first nanosecond of the next
second. -/
def lateClock : Nat → Time :=
  fun k => if k < 2 then 63900000000999999999 else 63900000001000000000

/-- The three date claims of a token string, when it has claims. -/
def TokenString.dates (t : TokenString) : Option (Option Time × Option Time × Option Time) :=
  match t with
  | .unparsable _ => none
  | .jws _ _ claims _ => some (claims.ExpiresAt, claims.IssuedAt, claims.NotBefore)

/-- The claims carried by a token string, when it has any. -/
def TokenString.claims? : TokenString → Option Claims
  | .unparsable _ => none
  | .jws _ _ claims _ => some claims

/-- A token with `sampleClaims` and the header `HS256` whose signature is not
the keyed hash of its first two segments. -/
def tamperedToken : TokenString :=
  .jws (sampleJWT.signingString "HS256" sampleClaims) "HS256" sampleClaims "forged"

/-- The claims of a token whose subject is not an identifier. -/
def badSubjectClaims : Claims :=
  { UserID := "not-a-uuid", Role := "user", ExpiresAt := some 100, IssuedAt := some 10,
    NotBefore := some 10 }

/-- A correctly signed `HS256` token whose subject is not an identifier. -/
def badSubjectToken : TokenString :=
  .jws (sampleJWT.signingString "HS256" badSubjectClaims) "HS256" badSubjectClaims
    (sampleJWT.hmac .HS256 "secret" (sampleJWT.signingString "HS256" badSubjectClaims))

/-- A stand-in for the decoding of token strings: four strings name the
sample tokens, every other string is unparsable. -/
def sampleDecode (t : String) : TokenString :=
  if t = "good" then hs256Token
  else if t = "tampered" then tamperedToken
  else if t = "rs256" then rs256Token
  else if t = "badsubject" then badSubjectToken
  else .unparsable t

/-- A stand-in for `uuid.Parse` that reads the identifiers `1` and `2`. -/
def sampleUuidParse (s : String) : Option UUID :=
  if s = "1" then some 1 else if s = "2" then some 2 else none

/-- The `ValidateToken` method of `sampleAuth` on strings, at instant `now`. -/
def sampleValidate (now : Time) (t : String) : Except Error Token :=
  sampleAuth.ValidateToken now (sampleDecode t)

/-- A stored record whose username has the form of an email address; its
password is `pw-erin`. -/
def erin : User :=
  { ID := 4
    Username := "erin@x.com"
    Email := "erin@mail.com"
    Password := "hash:pw-erin"
    FirstName := "Erin"
    LastName := "E"
    Role := "user"
    CreatedAt := 8
    UpdatedAt := 8 }

/-- A stored record whose email is the username of `erin`; its password is
`pw-frank`. -/
def frank : User :=
  { ID := 5
    Username := "frank"
    Email := "erin@x.com"
    Password := "hash:pw-frank"
    FirstName := "Frank"
    LastName := "F"
    Role := "user"
    CreatedAt := 9
    UpdatedAt := 9 }

/-- The `userService` that shares the repository and the hashing library of
an `authService`, as `cmd/main.go` wires them. -/
def authService.users {σ : Type} (a : authService σ) : userService σ :=
  { userRepo := a.userRepo, bcrypt := a.bcrypt }

/-- A stand-in for bcrypt that, like the library, refuses to hash a secret of
more than 72 characters; on shorter secrets it is `sampleBcrypt`. -/
def limitedBcrypt : Bcrypt where
  GenerateFromPassword password :=
    if password.length > 72 then .error (.other "bcrypt: password length exceeds 72 bytes")
    else .ok ("hash:" ++ password)
  CompareHashAndPassword hashedPassword password :=
    if hashedPassword = "hash:" ++ password then none
    else some (.other "hashedPassword is not the hash of the given password")

/-- A `userService` over the in-memory store that hashes with `limitedBcrypt`. -/
def limitedUsers : userService (List User) where
  userRepo := memoryRepo
  bcrypt := limitedBcrypt

/-- A secret of 73 characters. -/
def longSecret : String := String.mk (List.replicate 73 'a')

/-- The record `Register` passes to `Create` (lines 71-83), given the hash
`HashPassword` stored in it: no identifier yet, role `user`. -/
def registeredRecord (username email hashedPassword firstName lastName : String) : User :=
  { ID := 0
    Username := username
    Email := email
    Password := hashedPassword
    FirstName := firstName
    LastName := lastName
    Role := "user"
    CreatedAt := 0
    UpdatedAt := 0 }

/-- The record `UpdateUser` passes to `Update` (lines 64-70): the stored record
with each name replaced when the argument is not empty. -/
def renamedRecord (user : User) (firstName lastName : String) : User :=
  { user with
    FirstName := if firstName ≠ "" then firstName else user.FirstName
    LastName := if lastName ≠ "" then lastName else user.LastName }

/-! ## Properties -/

/-- C1: when both lookups succeed and either no record is found by email or by
username, or a record is found and `CheckPassword` fails on it, `Login`
returns exactly the empty token, no user and `ErrInvalidCredentials`, and
the login handler answers 401 with the one fixed body; the two failure cases
give the same results. -/
theorem Login_failures_indistinguishable {σ : Type} (s : authService σ) (clock : Nat → Time)
    (st : σ) (usernameOrEmail password : String) (byEmail byUsername : Option User)
    (hEmail : s.userRepo.FindByEmail st usernameOrEmail = .ok byEmail)
    (hUsername : s.userRepo.FindByUsername st usernameOrEmail = .ok byUsername)
    (hfail : (byEmail = none ∧ byUsername = none) ∨
      (∃ user, (byEmail = some user ∨ (byEmail = none ∧ byUsername = some user)) ∧
        user.CheckPassword s.bcrypt password = false)) :
    (s.Login clock st usernameOrEmail password).result
        = (emptyToken, none, some .ErrInvalidCredentials) ∧
      ∀ c : Context,
        AuthHandler.Login (fun u p => (s.Login clock st u p).result)
            (.ok ⟨usernameOrEmail, password⟩) c
          = c.JSON StatusUnauthorized
              [("error", .str "invalid username/email or password")] := by
  have hres : (s.Login clock st usernameOrEmail password).result
      = (emptyToken, none, some .ErrInvalidCredentials) := by
    rcases hfail with ⟨h1, h2⟩ | ⟨user, hfound, hpw⟩
    · subst h1 h2
      simp [authService.Login, hEmail, hUsername, authService.loginWith]
    · rcases hfound with h1 | ⟨h1, h2⟩
      · subst h1
        simp [authService.Login, hEmail, authService.loginWith, hpw]
      · subst h1 h2
        simp [authService.Login, hEmail, hUsername, authService.loginWith, hpw]
  refine ⟨hres, fun c => ?_⟩
  simp [AuthHandler.Login, hres]

/-- C1, on the in-memory store: a wrong password for `alice` and an unknown
name give the same result. -/
theorem Login_failures_indistinguishable_witness :
    (sampleAuth.Login (fixedClock 7) [alice] "alice" "wrongpass").result
        = (emptyToken, none, some .ErrInvalidCredentials) ∧
      (sampleAuth.Login (fixedClock 7) [alice] "nouser" "anypass").result
        = (emptyToken, none, some .ErrInvalidCredentials) :=
  ⟨(Login_failures_indistinguishable sampleAuth (fixedClock 7) [alice] "alice" "wrongpass"
      none (some alice) rfl rfl
      (Or.inr ⟨alice, Or.inr ⟨rfl, rfl⟩, by decide⟩)).1,
   (Login_failures_indistinguishable sampleAuth (fixedClock 7) [alice] "nouser" "anypass"
      none none rfl rfl (Or.inl ⟨rfl, rfl⟩)).1⟩

/-! ### Token validation -/

/-- A method found for an `alg` value in the HMAC family is one of three. -/
theorem GetSigningMethod_isHMAC (alg : String) (method : SigningMethod)
    (hm : GetSigningMethod alg = some method) (hh : method.isHMAC = true) :
    alg = "HS256" ∨ alg = "HS384" ∨ alg = "HS512" := by
  have halg : method.Alg = alg := by
    have := List.find?_some hm
    simpa using this
  subst halg
  cases method <;> simp [SigningMethod.isHMAC, SigningMethod.Alg] at hh ⊢

/-- The claims validator passes exactly when `now` is not before `nbf` and
strictly before `exp`, for the dates that are present. -/
theorem validateClaims_eq_none_iff (now : Time) (c : Claims) :
    validateClaims now c = none ↔
      (∀ nbf, c.NotBefore = some nbf → nbf ≤ now) ∧ (∀ exp, c.ExpiresAt = some exp → now < exp) := by
  unfold validateClaims
  cases hE : c.ExpiresAt <;> cases hN : c.NotBefore <;> simp
  rename_i exp nbf
  by_cases h1 : exp ≤ now
  · simp [h1]
  · by_cases h2 : now < nbf
    · simp [h1, h2]
    · simp [h1, h2]; exact ⟨Nat.le_of_not_lt h2, Nat.lt_of_not_le h1⟩

/-- What `ValidateToken` does with a token that declares a method of the HMAC
family and carries the keyed hash of its first two segments under the
configured secret: the outcome is that of the claims validator. -/
theorem ValidateToken_signed {σ : Type} (s : authService σ) (now : Time) (text alg : String)
    (method : SigningMethod) (claims : Claims)
    (hm : GetSigningMethod alg = some method) (hh : method.isHMAC = true) :
    s.ValidateToken now (.jws text alg claims (s.jwt.hmac method s.JWTSecret text))
      = match validateClaims now claims with
        | some err => .error err
        | none =>
          .ok { Method := method, Claims := .servicesClaims claims,
                Signature := s.jwt.hmac method s.JWTSecret text, Valid := true } := by
  simp [authService.ValidateToken, ParseWithClaims, hm, hh]

/-- C2 (counterexample): a token that declares `HS384` and is signed with the
`HS384` keyed hash under the shared secret is accepted by `ValidateToken`,
although `HS384` is not the algorithm `Login` issues tokens with. -/
theorem ValidateToken_accepts_HS384 :
    sampleAuth.ValidateToken 50 hs384Token
      = .ok { Method := .HS384, Claims := .servicesClaims sampleClaims,
              Signature := "HS384(secret,HS384.1.admin)", Valid := true } := by
  rfl

/-- C2 (amended): `ValidateToken` returns an error for every token whose header
declares an algorithm outside the HMAC family `HS256`, `HS384`, `HS512`,
whatever its claims and signature. -/
theorem ValidateToken_rejects_outside_HMAC {σ : Type} (s : authService σ) (now : Time)
    (text alg : String) (claims : Claims) (signature : String)
    (h256 : alg ≠ "HS256") (h384 : alg ≠ "HS384") (h512 : alg ≠ "HS512") :
    ∃ err, s.ValidateToken now (.jws text alg claims signature) = .error err := by
  cases hm : GetSigningMethod alg with
  | none =>
    refine ⟨.other "token is unverifiable: signing method (alg) is unavailable", ?_⟩
    simp only [authService.ValidateToken, ParseWithClaims, hm]
  | some method =>
    have hh : method.isHMAC = false := by
      cases hb : method.isHMAC with
      | false => rfl
      | true =>
        rcases GetSigningMethod_isHMAC alg method hm hb with h | h | h
        · exact absurd h h256
        · exact absurd h h384
        · exact absurd h h512
    refine ⟨.other ("token is unverifiable: error while executing keyfunc: "
      ++ (Error.other "unexpected signing method").message), ?_⟩
    simp [authService.ValidateToken, ParseWithClaims, hm, hh]

/-- C2 (amended), on a token that declares `RS256`. -/
theorem ValidateToken_rejects_outside_HMAC_witness :
    ("RS256" ≠ "HS256" ∧ "RS256" ≠ "HS384" ∧ "RS256" ≠ "HS512") ∧
      ∃ err, sampleAuth.ValidateToken 50 rs256Token = .error err :=
  ⟨by decide,
    ValidateToken_rejects_outside_HMAC sampleAuth 50
      (sampleJWT.signingString "RS256" sampleClaims) "RS256" sampleClaims "any signature"
      (by decide) (by decide) (by decide)⟩

/-! ### Token issuance -/

/-- Truncation to the second commutes with adding the 24 hour lifetime. -/
theorem NewNumericDate_add_day (t : Time) :
    NewNumericDate (t + 24 * Hour) = NewNumericDate t + 24 * Hour := by
  simp only [NewNumericDate, Hour, Second]
  unfold Time at *
  omega

/-- What `Login` returns once the lookups have produced a record whose
password check passes. -/
theorem loginWith_success {σ : Type} (s : authService σ) (clock : Nat → Time) (user : User)
    (password : String) (hpw : user.CheckPassword s.bcrypt password = true) :
    s.loginWith clock (some user) password
      = (.jws (s.jwt.signingString "HS256" (s.loginClaims clock user)) "HS256"
            (s.loginClaims clock user)
            (s.jwt.hmac .HS256 s.JWTSecret
              (s.jwt.signingString "HS256" (s.loginClaims clock user))),
          some user.ToUserResponse, none) := by
  simp [authService.loginWith, hpw, SignedString, SigningMethod.isHMAC, SigningMethod.Alg]

/-- The result of `Login` when the lookups produce `user`: by email, or by
username after the email lookup found nothing. -/
theorem Login_result_of_found {σ : Type} (s : authService σ) (clock : Nat → Time) (st : σ)
    (usernameOrEmail password : String) (user : User)
    (hfound : s.userRepo.FindByEmail st usernameOrEmail = .ok (some user) ∨
      (s.userRepo.FindByEmail st usernameOrEmail = .ok none ∧
        s.userRepo.FindByUsername st usernameOrEmail = .ok (some user))) :
    (s.Login clock st usernameOrEmail password).result
      = s.loginWith clock (some user) password := by
  rcases hfound with h | ⟨h1, h2⟩
  · simp [authService.Login, h]
  · simp [authService.Login, h1, h2]

/-- When the three clock readings of a successful `Login` are the same
instant, the issued claims have `exp = iat + 24h` and `nbf = iat`. -/
theorem loginWith_dates_steady_clock {σ : Type} (s : authService σ) (clock : Nat → Time)
    (user : User) (password : String)
    (hpw : user.CheckPassword s.bcrypt password = true)
    (h01 : clock 0 = clock 1) (h12 : clock 1 = clock 2) :
    (s.loginWith clock (some user) password).1.dates
      = some (some (NewNumericDate (clock 1) + 24 * Hour), some (NewNumericDate (clock 1)),
          some (NewNumericDate (clock 1))) := by
  rw [loginWith_success s clock user password hpw]
  simp [TokenString.dates, authService.loginClaims, h01, ← h12, NewNumericDate_add_day]

/-- C3 (the code at the failing input): when the first reading of the clock
is the last nanosecond of second `63900000000` and the next readings fall in
second `63900000001`, the issued token has `exp = 63900086400 s` and
`iat = 63900000001 s`, one second short of `iat + 24h`; when the second boundary
falls between the second and the third reading, the token has
`iat = 63900000000 s` and `nbf = 63900000001 s`. -/
theorem Login_dates_across_second_boundary :
    (sampleAuth.Login straddlingClock [alice] "alice" "secret1").result.1.dates
        = some (some 63900086400000000000, some 63900000001000000000,
            some 63900000001000000000) ∧
      (63900000001000000000 + 24 * Hour = 63900086401000000000) ∧
      (sampleAuth.Login lateClock [alice] "alice" "secret1").result.1.dates
        = some (some 63900086400000000000, some 63900000000000000000,
            some 63900000001000000000) := by
  refine ⟨by rfl, by decide, by rfl⟩

/-- C4: when the lookups of `Login` produce a record and the password check
passes, `Login` succeeds with a token that `ValidateToken`, under the same
secret and at any instant from the token's not-before up to (not including)
its expiry, accepts with claims whose `UserID` is the string form of the
record's id and whose `Role` is the record's role. -/
theorem Login_ValidateToken_roundtrip {σ : Type} (s : authService σ) (clock : Nat → Time)
    (st : σ) (usernameOrEmail password : String) (user : User) (now : Time)
    (hfound : s.userRepo.FindByEmail st usernameOrEmail = .ok (some user) ∨
      (s.userRepo.FindByEmail st usernameOrEmail = .ok none ∧
        s.userRepo.FindByUsername st usernameOrEmail = .ok (some user)))
    (hpw : user.CheckPassword s.bcrypt password = true)
    (hnbf : NewNumericDate (clock 2) ≤ now)
    (hexp : now < NewNumericDate (clock 0 + 24 * Hour)) :
    ∃ tokenString claims signature,
      (s.Login clock st usernameOrEmail password).result
          = (tokenString, some user.ToUserResponse, none) ∧
        tokenString.claims? = some claims ∧
        claims.NotBefore = some (NewNumericDate (clock 2)) ∧
        claims.ExpiresAt = some (NewNumericDate (clock 0 + 24 * Hour)) ∧
        s.ValidateToken now tokenString
          = .ok { Method := .HS256, Claims := .servicesClaims claims,
                  Signature := signature, Valid := true } ∧
        claims.UserID = s.uuidString user.ID ∧ claims.Role = user.Role := by
  refine ⟨.jws (s.jwt.signingString "HS256" (s.loginClaims clock user)) "HS256"
      (s.loginClaims clock user)
      (s.jwt.hmac .HS256 s.JWTSecret (s.jwt.signingString "HS256" (s.loginClaims clock user))),
    s.loginClaims clock user,
    s.jwt.hmac .HS256 s.JWTSecret (s.jwt.signingString "HS256" (s.loginClaims clock user)),
    ?_, rfl, rfl, rfl, ?_, rfl, rfl⟩
  · rw [Login_result_of_found s clock st usernameOrEmail password user hfound,
      loginWith_success s clock user password hpw]
  · rw [ValidateToken_signed s now _ "HS256" .HS256 _ rfl rfl]
    have hv : validateClaims now (s.loginClaims clock user) = none := by
      rw [validateClaims_eq_none_iff]
      constructor
      · intro nbf h
        simp only [authService.loginClaims, Option.some.injEq] at h
        subst h
        exact hnbf
      · intro exp h
        simp only [authService.loginClaims, Option.some.injEq] at h
        subst h
        exact hexp
    rw [hv]

/-- C4, on the in-memory store: `alice` logs in at instant 7 and the token is
validated at instant 50. -/
theorem Login_ValidateToken_roundtrip_witness :
    ∃ tokenString claims signature,
      (sampleAuth.Login (fixedClock 7) [alice] "alice" "secret1").result
          = (tokenString, some alice.ToUserResponse, none) ∧
        tokenString.claims? = some claims ∧
        claims.NotBefore = some (NewNumericDate (fixedClock 7 2)) ∧
        claims.ExpiresAt = some (NewNumericDate (fixedClock 7 0 + 24 * Hour)) ∧
        sampleAuth.ValidateToken 50 tokenString
          = .ok { Method := .HS256, Claims := .servicesClaims claims,
                  Signature := signature, Valid := true } ∧
        claims.UserID = sampleAuth.uuidString alice.ID ∧ claims.Role = alice.Role :=
  Login_ValidateToken_roundtrip sampleAuth (fixedClock 7) [alice] "alice" "secret1" alice 50
    (Or.inr ⟨rfl, rfl⟩) (by decide) (by decide) (by decide)

/-- C5: for a token that declares a method of the HMAC family and carries the
keyed hash of its first two segments under the configured secret,
`ValidateToken` returns an error when `now` is before the not-before instant,
returns an error when `now` is after the expiry instant, and accepts only when
`now` lies between the two, bounds included. -/
theorem ValidateToken_validity_window {σ : Type} (s : authService σ) (now : Time)
    (text alg : String) (method : SigningMethod) (claims : Claims)
    (hm : GetSigningMethod alg = some method) (hh : method.isHMAC = true) :
    (∀ nbf, claims.NotBefore = some nbf → now < nbf →
        ∃ err, s.ValidateToken now
          (.jws text alg claims (s.jwt.hmac method s.JWTSecret text)) = .error err) ∧
      (∀ exp, claims.ExpiresAt = some exp → exp < now →
        ∃ err, s.ValidateToken now
          (.jws text alg claims (s.jwt.hmac method s.JWTSecret text)) = .error err) ∧
      (∀ token, s.ValidateToken now
          (.jws text alg claims (s.jwt.hmac method s.JWTSecret text)) = .ok token →
        (∀ nbf, claims.NotBefore = some nbf → nbf ≤ now) ∧
          (∀ exp, claims.ExpiresAt = some exp → now ≤ exp)) := by
  rw [ValidateToken_signed s now text alg method claims hm hh]
  cases hv : validateClaims now claims with
  | some err =>
    refine ⟨fun _ _ _ => ⟨err, rfl⟩, fun _ _ _ => ⟨err, rfl⟩, fun token h => ?_⟩
    simp at h
  | none =>
    have hw := (validateClaims_eq_none_iff now claims).mp hv
    refine ⟨fun nbf h1 h2 => ?_, fun exp h1 h2 => ?_, fun _ _ => ⟨hw.1, fun exp h => ?_⟩⟩
    · exact absurd (hw.1 nbf h1) (Nat.not_le_of_lt h2)
    · exact absurd (hw.2 exp h1) (Nat.lt_asymm h2)
    · exact Nat.le_of_lt (hw.2 exp h)

/-- C5, on a sample token valid from instant 10 and expiring at instant 100:
it is rejected at instants 5 and 200 and accepted at instant 50. -/
theorem ValidateToken_validity_window_witness :
    (∃ err, sampleAuth.ValidateToken 5 hs256Token = .error err) ∧
      (∃ err, sampleAuth.ValidateToken 200 hs256Token = .error err) ∧
      (∃ token, sampleAuth.ValidateToken 50 hs256Token = .ok token) ∧
      (10 ≤ 50 ∧ 50 ≤ 100) :=
  ⟨(ValidateToken_validity_window sampleAuth 5
      (sampleJWT.signingString "HS256" sampleClaims) "HS256" .HS256 sampleClaims rfl rfl).1
      10 rfl (by decide),
    (ValidateToken_validity_window sampleAuth 200
      (sampleJWT.signingString "HS256" sampleClaims) "HS256" .HS256 sampleClaims rfl rfl).2.1
      100 rfl (by decide),
    ⟨_, rfl⟩,
    ⟨((ValidateToken_validity_window sampleAuth 50
      (sampleJWT.signingString "HS256" sampleClaims) "HS256" .HS256 sampleClaims rfl rfl).2.2
        _ rfl).1 10 rfl,
     ((ValidateToken_validity_window sampleAuth 50
      (sampleJWT.signingString "HS256" sampleClaims) "HS256" .HS256 sampleClaims rfl rfl).2.2
        _ rfl).2 100 rfl⟩⟩

/-- At the expiry instant itself a correctly signed token is already rejected:
the validator requires `now` to be strictly before `exp`. -/
theorem ValidateToken_at_expiry :
    sampleAuth.ValidateToken 100 hs256Token
      = .error (.other "token has invalid claims: token is expired") := by
  rfl

/-! ### Role check -/

/-- C6: `AdminRequired` answers 401 and aborts when no `userRole` is set,
answers 403 and aborts when `userRole` is set to anything but the string
`"admin"`, and calls `Next` when it is the string `"admin"`; on a context not
yet aborted the pending handlers run exactly when `userRole` is `"admin"`. -/
theorem AdminRequired_by_role (c : Context) :
    (c.Get "userRole" = none →
        AdminRequired c = (c.JSON StatusUnauthorized [("error", .str "unauthorized")]).Abort) ∧
      (∀ role, c.Get "userRole" = some role → role ≠ .str "admin" →
        AdminRequired c
          = (c.JSON StatusForbidden [("error", .str "admin access required")]).Abort) ∧
      (c.Get "userRole" = some (.str "admin") → AdminRequired c = c.Next) ∧
      (c.aborted = false →
        ((AdminRequired c).proceeds = true ↔ c.Get "userRole" = some (.str "admin"))) := by
  refine ⟨fun h => ?_, fun role h hne => ?_, fun h => ?_, fun hab => ?_⟩
  · simp [AdminRequired, h]
  · simp [AdminRequired, h, hne]
  · simp [AdminRequired, h]
  · cases h : c.Get "userRole" with
    | none => simp [AdminRequired, h, Context.proceeds, Context.Abort, Context.JSON]
    | some role =>
      by_cases hr : role = .str "admin"
      · subst hr
        simp [AdminRequired, h, Context.proceeds, Context.Next, hab]
      · simp [AdminRequired, h, hr, Context.proceeds, Context.Abort, Context.JSON]

/-- C6, on three contexts: role `user` is answered 403, role `admin` proceeds,
and a context without a role is answered 401. -/
theorem AdminRequired_by_role_witness :
    (AdminRequired ((request []).Set "userRole" (.str "user"))).response
        = some ⟨403, [("error", .str "admin access required")]⟩ ∧
      (AdminRequired ((request []).Set "userRole" (.str "user"))).proceeds = false ∧
      (AdminRequired ((request []).Set "userRole" (.str "admin"))).proceeds = true ∧
      (AdminRequired (request [])).response = some ⟨401, [("error", .str "unauthorized")]⟩ ∧
      (AdminRequired (request [])).proceeds = false :=
  ⟨by rfl, by rfl,
    ((AdminRequired_by_role ((request []).Set "userRole" (.str "admin"))).2.2.2 rfl).mpr rfl,
    by rfl, by rfl⟩

/-! ### Bearer header -/

/-- The split at the first space yields either the whole text, which then has
no space, or the text before the first space and the text after it. -/
theorem splitFirstSpace_cases (l : List Char) :
    (splitFirstSpace l = [l] ∧ ' ' ∉ l) ∨
      ∃ first rest, splitFirstSpace l = [first, rest] ∧ l = first ++ ' ' :: rest ∧
        ' ' ∉ first := by
  induction l with
  | nil => left; simp [splitFirstSpace]
  | cons c cs ih =>
    by_cases hc : c = ' '
    · right
      exact ⟨[], cs, by simp [splitFirstSpace, hc], by simp [hc], by simp⟩
    · rcases ih with ⟨h1, h2⟩ | ⟨first, rest, h1, h2, h3⟩
      · left
        refine ⟨by simp [splitFirstSpace, hc, h1], ?_⟩
        simp only [List.mem_cons, not_or]
        exact ⟨fun h => hc h.symm, h2⟩
      · right
        refine ⟨c :: first, rest, by simp [splitFirstSpace, hc, h1], by simp [h2], ?_⟩
        simp only [List.mem_cons, not_or]
        exact ⟨fun h => hc h.symm, h3⟩

/-- A header splits into the two parts `"Bearer"` and `t` exactly when it is
`"Bearer "` followed by `t`. -/
theorem SplitN2_bearer_iff (h t : String) :
    SplitN2 h = ["Bearer", t] ↔ h = "Bearer " ++ t := by
  constructor
  · intro hs
    rcases splitFirstSpace_cases h.data with ⟨h1, _⟩ | ⟨first, rest, h1, h2, _⟩
    · simp [SplitN2, h1] at hs
    · simp only [SplitN2, h1, List.map_cons, List.map_nil, List.cons.injEq, and_true] at hs
      obtain ⟨hf, hr⟩ := hs
      have hfirst : first = "Bearer".data := by rw [← hf]
      have hrest : rest = t.data := by rw [← hr]
      apply String.ext
      rw [h2, hfirst, hrest, String.data_append]
      rfl
  · intro hh
    subst hh
    have hd : ("Bearer " ++ t).data = 'B' :: 'e' :: 'a' :: 'r' :: 'e' :: 'r' :: ' ' :: t.data := by
      rw [String.data_append]
      rfl
    simp only [SplitN2, hd, splitFirstSpace]
    simp

/-- A header that splits into two parts whose first is `"Bearer"` is
`"Bearer "` followed by the second part. -/
theorem SplitN2_two_parts (h scheme t : String) (hs : SplitN2 h = [scheme, t])
    (hb : scheme = "Bearer") : h = "Bearer " ++ t := by
  subst hb
  exact (SplitN2_bearer_iff h t).mp hs

/-- C7: `JWTAuthMiddleware` calls `ValidateToken` exactly when the
`Authorization` header is `"Bearer "` followed by some text, which is the same
as splitting at the first space into the two parts `"Bearer"` and that text;
the text is then the one argument passed.  For every other header value (the
empty or missing header included) it answers 401 with an error message, aborts,
makes no `ValidateToken` call and leaves `Keys` as they were. -/
theorem JWTAuthMiddleware_bearer_form (ValidateToken : String → Except Error Token)
    (uuidParse : String → Option UUID) (c : Context) :
    (∀ t, c.GetHeader "Authorization" = "Bearer " ++ t →
        (JWTAuthMiddleware ValidateToken uuidParse c).validateCalls = [t]) ∧
      ((∀ t, c.GetHeader "Authorization" ≠ "Bearer " ++ t) →
        (JWTAuthMiddleware ValidateToken uuidParse c).validateCalls = [] ∧
          ∃ msg, (JWTAuthMiddleware ValidateToken uuidParse c).ctx
            = (c.JSON StatusUnauthorized [("error", .str msg)]).Abort) ∧
      (∀ t, SplitN2 (c.GetHeader "Authorization") = ["Bearer", t] ↔
        c.GetHeader "Authorization" = "Bearer " ++ t) := by
  refine ⟨fun t ht => ?_, fun hne => ?_, fun t => SplitN2_bearer_iff _ t⟩
  · have hsplit := (SplitN2_bearer_iff _ t).mpr ht
    have hnonempty : c.GetHeader "Authorization" ≠ "" := by
      rw [ht]
      intro h
      have := congrArg String.length h
      simp at this
      exact absurd this.1 (by decide)
    simp only [JWTAuthMiddleware, hnonempty, hsplit, if_false, if_true]
    cases hv : ValidateToken t with
    | error err => rfl
    | ok token =>
      rcases token with ⟨method, claims, signature, valid⟩
      cases claims with
      | otherType => rfl
      | servicesClaims cl =>
        cases valid with
        | false => rfl
        | true =>
          simp only
          cases uuidParse cl.UserID <;> rfl
  · by_cases he : c.GetHeader "Authorization" = ""
    · exact ⟨by simp [JWTAuthMiddleware, he], _, by simp [JWTAuthMiddleware, he]; rfl⟩
    · simp only [JWTAuthMiddleware, he, if_false]
      split
      · rename_i scheme tokenString hs
        by_cases hb : scheme = "Bearer"
        · exact absurd (SplitN2_two_parts _ scheme tokenString hs hb) (hne tokenString)
        · simp only [hb, if_false]
          exact ⟨trivial, _, rfl⟩
      · exact ⟨rfl, _, rfl⟩

/-- The handler `AuthHandler.ValidateToken` reads the header the same way: it
calls `ValidateToken` with `t` exactly when the header is `"Bearer "` followed by
`t`, and otherwise answers 401 without a call. -/
theorem AuthHandler_ValidateToken_bearer_form (ValidateToken : String → Except Error Token)
    (c : Context) :
    (∀ t, c.GetHeader "Authorization" = "Bearer " ++ t →
        (AuthHandler.ValidateToken ValidateToken c).validateCalls = [t]) ∧
      ((∀ t, c.GetHeader "Authorization" ≠ "Bearer " ++ t) →
        (AuthHandler.ValidateToken ValidateToken c).validateCalls = [] ∧
          ∃ msg, (AuthHandler.ValidateToken ValidateToken c).ctx
            = c.JSON StatusUnauthorized [("error", .str msg)]) := by
  refine ⟨fun t ht => ?_, fun hne => ?_⟩
  · have hsplit := (SplitN2_bearer_iff _ t).mpr ht
    have hnonempty : c.GetHeader "Authorization" ≠ "" := by
      rw [ht]
      intro h
      have := congrArg String.length h
      simp at this
      exact absurd this.1 (by decide)
    simp only [AuthHandler.ValidateToken, hnonempty, hsplit, if_false, if_true]
    cases hv : ValidateToken t with
    | error err => rfl
    | ok token =>
      simp only
      cases token.Valid <;> rfl
  · by_cases he : c.GetHeader "Authorization" = ""
    · exact ⟨by simp [AuthHandler.ValidateToken, he], _,
        by simp [AuthHandler.ValidateToken, he]; rfl⟩
    · simp only [AuthHandler.ValidateToken, he, if_false]
      split
      · rename_i scheme tokenString hs
        by_cases hb : scheme = "Bearer"
        · exact absurd (SplitN2_two_parts _ scheme tokenString hs hb) (hne tokenString)
        · simp only [hb, if_false]
          exact ⟨trivial, _, rfl⟩
      · exact ⟨rfl, _, rfl⟩

/-- C7, on sample headers: `Bearer abc` passes `abc` on; a missing header, the
scheme in another letter case, another scheme, and `Bearer` with no space are
answered 401 without a `ValidateToken` call. -/
theorem JWTAuthMiddleware_bearer_form_witness :
    (JWTAuthMiddleware (fun _ => .error (.other "bad")) (fun _ => none)
        (request [("Authorization", "Bearer abc")])).validateCalls = ["abc"] ∧
      (JWTAuthMiddleware (fun _ => .error (.other "bad")) (fun _ => none)
        (request [])).validateCalls = [] ∧
      (JWTAuthMiddleware (fun _ => .error (.other "bad")) (fun _ => none)
        (request [("Authorization", "bearer abc")])).ctx
          = ((request [("Authorization", "bearer abc")]).JSON 401
              [("error", .str "invalid authorization header format")]).Abort ∧
      (JWTAuthMiddleware (fun _ => .error (.other "bad")) (fun _ => none)
        (request [("Authorization", "Basic abc")])).validateCalls = [] ∧
      (JWTAuthMiddleware (fun _ => .error (.other "bad")) (fun _ => none)
        (request [("Authorization", "Bearer")])).validateCalls = [] :=
  ⟨(JWTAuthMiddleware_bearer_form _ _ (request [("Authorization", "Bearer abc")])).1 "abc" rfl,
    by rfl, by rfl, by rfl, by rfl⟩

/-! ### Registration, login lookups, password change -/

/-- C8: when both lookups succeed and a record with the username exists or a
record with the email exists, `Register` returns `ErrUserExists`, never calls
`Create`, and leaves the store as it was. -/
theorem Register_conflict {σ : Type} (s : authService σ) (st : σ)
    (username email password firstName lastName : String) (byUsername byEmail : Option User)
    (hUsername : s.userRepo.FindByUsername st username = .ok byUsername)
    (hEmail : s.userRepo.FindByEmail st email = .ok byEmail)
    (hexists : byUsername.isSome = true ∨ byEmail.isSome = true) :
    (s.Register st username email password firstName lastName).result
        = (none, some .ErrUserExists) ∧
      (s.Register st username email password firstName lastName).store = st ∧
      ∀ user, RepoCall.Create user ∉
        (s.Register st username email password firstName lastName).calls := by
  cases byUsername with
  | some found => simp [authService.Register, hUsername]
  | none =>
    cases byEmail with
    | some found => simp [authService.Register, hUsername, hEmail]
    | none => simp at hexists

/-- C8, the scenario: after `("alice", "alice@x.com", "secret1")` is
registered on the empty store, registering `("alice", "bob@x.com", "secret2")`
returns the conflict and leaves the store with its one record. -/
theorem Register_conflict_witness :
    (sampleAuth.Register [] "alice" "alice@x.com" "secret1" "" "").result.2 = none ∧
      (sampleAuth.Register
          (sampleAuth.Register [] "alice" "alice@x.com" "secret1" "" "").store
          "alice" "bob@x.com" "secret2" "" "").result = (none, some .ErrUserExists) ∧
      (sampleAuth.Register
          (sampleAuth.Register [] "alice" "alice@x.com" "secret1" "" "").store
          "alice" "bob@x.com" "secret2" "" "").store
        = (sampleAuth.Register [] "alice" "alice@x.com" "secret1" "" "").store :=
  ⟨by rfl,
    (Register_conflict sampleAuth
      (sampleAuth.Register [] "alice" "alice@x.com" "secret1" "" "").store
      "alice" "bob@x.com" "secret2" "" ""
      (some { ID := 1, Username := "alice", Email := "alice@x.com", Password := "hash:secret1",
              FirstName := "", LastName := "", Role := "user", CreatedAt := 0, UpdatedAt := 0 })
      none rfl rfl (Or.inl rfl)).1,
    (Register_conflict sampleAuth
      (sampleAuth.Register [] "alice" "alice@x.com" "secret1" "" "").store
      "alice" "bob@x.com" "secret2" "" ""
      (some { ID := 1, Username := "alice", Email := "alice@x.com", Password := "hash:secret1",
              FirstName := "", LastName := "", Role := "user", CreatedAt := 0, UpdatedAt := 0 })
      none rfl rfl (Or.inl rfl)).2.1⟩

/-- C9: `Login` looks up by email first.  When a record has the identifier as
its email, the only repository call is that lookup, whatever the username
lookup would return, and the outcome is decided by the password check on that
record: `ErrInvalidCredentials` when it fails, a token for that record when it
passes.  When the email lookup returns a storage error, `Login` returns that
error after that one call.  The username lookup is made exactly when the email
lookup returns no record and no error. -/
theorem Login_email_first {σ : Type} (s : authService σ) (clock : Nat → Time) (st : σ)
    (usernameOrEmail password : String) :
    (∀ A, s.userRepo.FindByEmail st usernameOrEmail = .ok (some A) →
        (s.Login clock st usernameOrEmail password).calls = [.FindByEmail usernameOrEmail] ∧
          (A.CheckPassword s.bcrypt password = false →
            (s.Login clock st usernameOrEmail password).result
              = (emptyToken, none, some .ErrInvalidCredentials)) ∧
          (A.CheckPassword s.bcrypt password = true →
            (s.Login clock st usernameOrEmail password).result
              = (.jws (s.jwt.signingString "HS256" (s.loginClaims clock A)) "HS256"
                    (s.loginClaims clock A)
                    (s.jwt.hmac .HS256 s.JWTSecret
                      (s.jwt.signingString "HS256" (s.loginClaims clock A))),
                  some A.ToUserResponse, none))) ∧
      (∀ err, s.userRepo.FindByEmail st usernameOrEmail = .error err →
        (s.Login clock st usernameOrEmail password).calls = [.FindByEmail usernameOrEmail] ∧
          (s.Login clock st usernameOrEmail password).result = (emptyToken, none, some err)) ∧
      (RepoCall.FindByUsername usernameOrEmail
          ∈ (s.Login clock st usernameOrEmail password).calls ↔
        s.userRepo.FindByEmail st usernameOrEmail = .ok none) := by
  refine ⟨fun A hA => ⟨?_, fun hpw => ?_, fun hpw => ?_⟩, fun err herr => ?_, ?_⟩
  · simp [authService.Login, hA]
  · rw [Login_result_of_found s clock st usernameOrEmail password A (Or.inl hA)]
    simp [authService.loginWith, hpw]
  · rw [Login_result_of_found s clock st usernameOrEmail password A (Or.inl hA),
      loginWith_success s clock A password hpw]
  · simp [authService.Login, herr]
  · cases hE : s.userRepo.FindByEmail st usernameOrEmail with
    | error err => simp [authService.Login, hE]
    | ok found =>
      cases found with
      | some A => simp [authService.Login, hE]
      | none =>
        cases hU : s.userRepo.FindByUsername st usernameOrEmail <;>
          simp [authService.Login, hE, hU]

/-- C9, on a store where `carol` has email `shared` and `dave` has username
`shared`: logging in as `shared` checks the password against `carol` after the
email lookup alone; and a failing email lookup is returned as it is. -/
theorem Login_email_first_witness :
    (sampleAuth.Login (fixedClock 7) [dave, carol] "shared" "pw-carol").calls
        = [.FindByEmail "shared"] ∧
      (sampleAuth.Login (fixedClock 7) [dave, carol] "shared" "pw-carol").result.2.1
        = some carol.ToUserResponse ∧
      (sampleAuth.Login (fixedClock 7) [dave, carol] "shared" "pw-dave").result
        = (emptyToken, none, some .ErrInvalidCredentials) ∧
      (failingEmailAuth.Login (fixedClock 7) [dave, carol] "shared" "pw-dave").result
        = (emptyToken, none, some (.other "connection refused")) ∧
      (failingEmailAuth.Login (fixedClock 7) [dave, carol] "shared" "pw-dave").calls
        = [.FindByEmail "shared"] :=
  ⟨((Login_email_first sampleAuth (fixedClock 7) [dave, carol] "shared" "pw-carol").1
      carol rfl).1,
    by rfl,
    ((Login_email_first sampleAuth (fixedClock 7) [dave, carol] "shared" "pw-dave").1
      carol rfl).2.1 (by decide),
    ((Login_email_first failingEmailAuth (fixedClock 7) [dave, carol] "shared" "pw-dave").2.1
      (.other "connection refused") rfl).2,
    by rfl⟩

/-- C10: `ChangePassword` returns `ErrUserNotFound` when the record is absent
and `ErrInvalidCredentials` when the record exists but the old password fails
the check against the stored hash; in both cases the only repository call is
the lookup (no `Update`) and the store is left as it was. -/
theorem ChangePassword_requires_old {σ : Type} (s : userService σ) (st : σ) (id : UUID)
    (oldPassword newPassword : String) :
    (s.userRepo.FindByID st id = .ok none →
        (s.ChangePassword st id oldPassword newPassword).result = some .ErrUserNotFound ∧
          (s.ChangePassword st id oldPassword newPassword).store = st ∧
          (s.ChangePassword st id oldPassword newPassword).calls = [.FindByID id]) ∧
      (∀ user, s.userRepo.FindByID st id = .ok (some user) →
        user.CheckPassword s.bcrypt oldPassword = false →
        (s.ChangePassword st id oldPassword newPassword).result
            = some .ErrInvalidCredentials ∧
          (s.ChangePassword st id oldPassword newPassword).store = st ∧
          (s.ChangePassword st id oldPassword newPassword).calls = [.FindByID id]) := by
  refine ⟨fun h => ?_, fun user h hpw => ?_⟩
  · simp [userService.ChangePassword, h]
  · simp [userService.ChangePassword, h, hpw]

/-- C10, on the in-memory store holding `alice`: a wrong old password and an
unknown id are both refused, the store still holds `alice` with her hash, and
no call is an `Update`. -/
theorem ChangePassword_requires_old_witness :
    (sampleUsers.ChangePassword [alice] 1 "wrong" "secret2").result
        = some .ErrInvalidCredentials ∧
      (sampleUsers.ChangePassword [alice] 1 "wrong" "secret2").store = [alice] ∧
      (∀ user, RepoCall.Update user ∉
        (sampleUsers.ChangePassword [alice] 1 "wrong" "secret2").calls) ∧
      (sampleUsers.ChangePassword [alice] 9 "secret1" "secret2").result
        = some .ErrUserNotFound ∧
      (sampleUsers.ChangePassword [alice] 9 "secret1" "secret2").store = [alice] :=
  ⟨((ChangePassword_requires_old sampleUsers [alice] 1 "wrong" "secret2").2
      alice rfl (by decide)).1,
    ((ChangePassword_requires_old sampleUsers [alice] 1 "wrong" "secret2").2
      alice rfl (by decide)).2.1,
    fun user h => by
      rw [((ChangePassword_requires_old sampleUsers [alice] 1 "wrong" "secret2").2
        alice rfl (by decide)).2.2] at h
      simp at h,
    ((ChangePassword_requires_old sampleUsers [alice] 9 "secret1" "secret2").1 rfl).1,
    ((ChangePassword_requires_old sampleUsers [alice] 9 "secret1" "secret2").1 rfl).2.1⟩

/-! ### Outward projection -/

/-- The run of `Register` once neither lookup finds a record and hashing
succeeds: one `Create` call on the new record, whose outcome decides the
result. -/
theorem Register_run_of_free {σ : Type} (a : authService σ) (st : σ)
    (username email password firstName lastName hashed : String)
    (hU : a.userRepo.FindByUsername st username = .ok none)
    (hE : a.userRepo.FindByEmail st email = .ok none)
    (hH : a.bcrypt.GenerateFromPassword password = .ok hashed) :
    a.Register st username email password firstName lastName
      = match a.userRepo.Create st (registeredRecord username email hashed firstName lastName) with
        | (.error err, st1) =>
          ⟨(none, some err), st1,
            [.FindByUsername username, .FindByEmail email,
              .Create (registeredRecord username email hashed firstName lastName)]⟩
        | (.ok created, st1) =>
          ⟨(some created.ToUserResponse, none), st1,
            [.FindByUsername username, .FindByEmail email,
              .Create (registeredRecord username email hashed firstName lastName)]⟩ := by
  simp only [authService.Register, hU, hE, User.HashPassword, hH, registeredRecord]

/-- The run of `UpdateUser` once the record is found: one `Update` call on the
renamed record, whose outcome decides the result. -/
theorem UpdateUser_run_of_found {σ : Type} (u : userService σ) (st : σ) (id : UUID)
    (firstName lastName : String) (user : User)
    (hF : u.userRepo.FindByID st id = .ok (some user)) :
    u.UpdateUser st id firstName lastName
      = match u.userRepo.Update st (renamedRecord user firstName lastName) with
        | (.error err, st1) =>
          ⟨(none, some err), st1,
            [.FindByID id, .Update (renamedRecord user firstName lastName)]⟩
        | (.ok saved, st1) =>
          ⟨(some saved.ToUserResponse, none), st1,
            [.FindByID id, .Update (renamedRecord user firstName lastName)]⟩ := by
  have hr : (if lastName ≠ "" then
        { (if firstName ≠ "" then { user with FirstName := firstName } else user) with
          LastName := lastName }
      else (if firstName ≠ "" then { user with FirstName := firstName } else user))
      = renamedRecord user firstName lastName := by
    unfold renamedRecord
    split_ifs <;> rfl
  simp only [userService.UpdateUser, hF]
  rw [hr]

/-- C12: `ToUserResponse` does not depend on the `Password` field and copies
`ID`, `Username`, `Email`, `FirstName`, `LastName`, `Role` and `CreatedAt`
unchanged; and every identity returned by `Register`, `Login`, `GetUserByID`,
`UpdateUser` and `ListUsers` is the `ToUserResponse` projection of the record
the repository handed back (created, found, saved, listed). -/
theorem responses_are_projections {σ : Type} (a : authService σ) (u : userService σ)
    (clock : Nat → Time) (st : σ) :
    (∀ (user : User) (p : String), ({ user with Password := p }).ToUserResponse
        = user.ToUserResponse) ∧
      (∀ user : User,
        user.ToUserResponse.ID = user.ID ∧ user.ToUserResponse.Username = user.Username ∧
          user.ToUserResponse.Email = user.Email ∧
          user.ToUserResponse.FirstName = user.FirstName ∧
          user.ToUserResponse.LastName = user.LastName ∧
          user.ToUserResponse.Role = user.Role ∧
          user.ToUserResponse.CreatedAt = user.CreatedAt) ∧
      (∀ username email password firstName lastName resp,
        (a.Register st username email password firstName lastName).result.1 = some resp →
        ∃ passed created,
          RepoCall.Create passed
              ∈ (a.Register st username email password firstName lastName).calls ∧
            (a.userRepo.Create st passed).1 = .ok created ∧
            resp = created.ToUserResponse) ∧
      (∀ usernameOrEmail password resp,
        (a.Login clock st usernameOrEmail password).result.2.1 = some resp →
        ∃ user, (a.userRepo.FindByEmail st usernameOrEmail = .ok (some user) ∨
            a.userRepo.FindByUsername st usernameOrEmail = .ok (some user)) ∧
          resp = user.ToUserResponse) ∧
      (∀ id resp, (u.GetUserByID st id).result.1 = some resp →
        ∃ user, u.userRepo.FindByID st id = .ok (some user) ∧ resp = user.ToUserResponse) ∧
      (∀ id firstName lastName resp,
        (u.UpdateUser st id firstName lastName).result.1 = some resp →
        ∃ passed saved,
          RepoCall.Update passed ∈ (u.UpdateUser st id firstName lastName).calls ∧
            (u.userRepo.Update st passed).1 = .ok saved ∧
            resp = saved.ToUserResponse) ∧
      (∀ page size users total,
        u.userRepo.List st (if page < 1 then 1 else page) (if size < 1 then 10 else size)
          = .ok (users, total) →
        (u.ListUsers st page size).result = (users.map User.ToUserResponse, total, none)) := by
  refine ⟨fun _ _ => rfl, fun _ => ⟨rfl, rfl, rfl, rfl, rfl, rfl, rfl⟩, ?_, ?_, ?_, ?_, ?_⟩
  · intro username email password firstName lastName resp h
    cases hU : a.userRepo.FindByUsername st username with
    | error err => simp [authService.Register, hU] at h
    | ok byUsername =>
      cases byUsername with
      | some found => simp [authService.Register, hU] at h
      | none =>
        cases hE : a.userRepo.FindByEmail st email with
        | error err => simp [authService.Register, hU, hE] at h
        | ok byEmail =>
          cases byEmail with
          | some found => simp [authService.Register, hU, hE] at h
          | none =>
            cases hH : a.bcrypt.GenerateFromPassword password with
            | error err => simp [authService.Register, hU, hE, User.HashPassword, hH] at h
            | ok hashed =>
              rw [Register_run_of_free a st username email password firstName lastName
                hashed hU hE hH] at h ⊢
              rcases hC : a.userRepo.Create st
                (registeredRecord username email hashed firstName lastName) with ⟨r, st1⟩
              rw [hC] at h
              cases r with
              | error err => simp at h
              | ok created =>
                simp only [Option.some.injEq] at h
                exact ⟨registeredRecord username email hashed firstName lastName, created,
                  by simp [hC], by rw [hC], h.symm⟩
  · intro usernameOrEmail password resp h
    cases hE : a.userRepo.FindByEmail st usernameOrEmail with
    | error err => simp [authService.Login, hE] at h
    | ok byEmail =>
      cases byEmail with
      | some user =>
        refine ⟨user, Or.inl rfl, ?_⟩
        rw [Login_result_of_found a clock st usernameOrEmail password user (Or.inl hE)] at h
        cases hpw : user.CheckPassword a.bcrypt password with
        | false => simp [authService.loginWith, hpw] at h
        | true =>
          rw [loginWith_success a clock user password hpw] at h
          simp only [Option.some.injEq] at h
          exact h.symm
      | none =>
        cases hU : a.userRepo.FindByUsername st usernameOrEmail with
        | error err => simp [authService.Login, hE, hU] at h
        | ok byUsername =>
          cases byUsername with
          | none => simp [authService.Login, hE, hU, authService.loginWith] at h
          | some user =>
            refine ⟨user, Or.inr rfl, ?_⟩
            rw [Login_result_of_found a clock st usernameOrEmail password user
              (Or.inr ⟨hE, hU⟩)] at h
            cases hpw : user.CheckPassword a.bcrypt password with
            | false => simp [authService.loginWith, hpw] at h
            | true =>
              rw [loginWith_success a clock user password hpw] at h
              simp only [Option.some.injEq] at h
              exact h.symm
  · intro id resp h
    unfold userService.GetUserByID at h
    cases hF : u.userRepo.FindByID st id with
    | error err => simp [hF] at h
    | ok found =>
      cases found with
      | none => simp [hF] at h
      | some user =>
        simp only [hF, Option.some.injEq] at h
        exact ⟨user, rfl, h.symm⟩
  · intro id firstName lastName resp h
    cases hF : u.userRepo.FindByID st id with
    | error err => simp [userService.UpdateUser, hF] at h
    | ok found =>
      cases found with
      | none => simp [userService.UpdateUser, hF] at h
      | some user =>
        rw [UpdateUser_run_of_found u st id firstName lastName user hF] at h ⊢
        rcases hS : u.userRepo.Update st (renamedRecord user firstName lastName) with ⟨r, st1⟩
        rw [hS] at h
        cases r with
        | error err => simp at h
        | ok saved =>
          simp only [Option.some.injEq] at h
          exact ⟨renamedRecord user firstName lastName, saved, by simp [hS], by rw [hS],
            h.symm⟩
  · intro page size users total hL
    simp [userService.ListUsers, hL]

/-- C12, on the in-memory store: looking `alice` up by id returns her
projection, which is the same for a record that differs only in its hash. -/
theorem responses_are_projections_witness :
    (sampleUsers.GetUserByID [alice] 1).result = (some alice.ToUserResponse, none) ∧
      ({ alice with Password := "another hash" }).ToUserResponse = alice.ToUserResponse :=
  ⟨by rfl, (responses_are_projections sampleAuth sampleUsers (fixedClock 7) [alice]).1
    alice "another hash"⟩

/-! ### Registration and profile update -/

/-- C14: when neither lookup finds a record, then (a) if hashing succeeds,
`Register` makes one `Create` call, on a record with role `user`, the given
username, email and names and the hash of the secret as its `Password`; when
`Create` succeeds the result is the `ToUserResponse` projection of that record
as `Create` left it; (b) if hashing fails, `Register` returns the hashing error,
makes no `Create` call and leaves the store as it was. -/
theorem Register_stores_hashed_user {σ : Type} (a : authService σ) (st : σ)
    (username email password firstName lastName : String)
    (hU : a.userRepo.FindByUsername st username = .ok none)
    (hE : a.userRepo.FindByEmail st email = .ok none) :
    (∀ hashed, a.bcrypt.GenerateFromPassword password = .ok hashed →
        (a.Register st username email password firstName lastName).calls
            = [.FindByUsername username, .FindByEmail email,
                .Create (registeredRecord username email hashed firstName lastName)] ∧
          (registeredRecord username email hashed firstName lastName).Role = "user" ∧
          (registeredRecord username email hashed firstName lastName).Username = username ∧
          (registeredRecord username email hashed firstName lastName).Email = email ∧
          (registeredRecord username email hashed firstName lastName).FirstName = firstName ∧
          (registeredRecord username email hashed firstName lastName).LastName = lastName ∧
          (registeredRecord username email hashed firstName lastName).Password = hashed ∧
          ∀ created st1,
            a.userRepo.Create st (registeredRecord username email hashed firstName lastName)
              = (.ok created, st1) →
            (a.Register st username email password firstName lastName).result
                = (some created.ToUserResponse, none) ∧
              (a.Register st username email password firstName lastName).store = st1) ∧
      (∀ err, a.bcrypt.GenerateFromPassword password = .error err →
        (a.Register st username email password firstName lastName).result = (none, some err) ∧
          (a.Register st username email password firstName lastName).store = st ∧
          ∀ user, RepoCall.Create user ∉
            (a.Register st username email password firstName lastName).calls) := by
  refine ⟨fun hashed hH => ?_, fun err hH => ?_⟩
  · refine ⟨?_, rfl, rfl, rfl, rfl, rfl, rfl, ?_⟩
    · rw [Register_run_of_free a st username email password firstName lastName hashed hU hE hH]
      rcases hC : a.userRepo.Create st
        (registeredRecord username email hashed firstName lastName) with ⟨r, st1⟩
      cases r <;> rfl
    · intro created st1 hC
      rw [Register_run_of_free a st username email password firstName lastName hashed hU hE hH,
        hC]
      exact ⟨rfl, rfl⟩
  · simp [authService.Register, hU, hE, User.HashPassword, hH]

/-- C14, on the in-memory store: registering `bob` on the store holding
`alice` passes a record with the hash `hash:secret2` and role `user` to
`Create` and returns its projection. -/
theorem Register_stores_hashed_user_witness :
    (sampleAuth.Register [alice] "bob" "bob@x.com" "secret2" "Bob" "B").calls
        = [.FindByUsername "bob", .FindByEmail "bob@x.com",
            .Create (registeredRecord "bob" "bob@x.com" "hash:secret2" "Bob" "B")] ∧
      (sampleAuth.Register [alice] "bob" "bob@x.com" "secret2" "Bob" "B").result
        = (some ({ registeredRecord "bob" "bob@x.com" "hash:secret2" "Bob" "B" with
              ID := 2 }).ToUserResponse, none) :=
  ⟨by rfl,
    (((Register_stores_hashed_user sampleAuth [alice] "bob" "bob@x.com" "secret2" "Bob" "B"
        rfl rfl).1 "hash:secret2" rfl).2.2.2.2.2.2.2
      _ _ (by rfl)).1⟩

/-- C16: when the record exists, `UpdateUser` makes one `Update` call, on a
record with the stored `ID`, `Username`, `Email`, `Password`, `Role` and
`CreatedAt`, whose `FirstName` is the argument when that is not empty and the
stored one when it is empty, and likewise for `LastName`; when the record is
absent it returns `ErrUserNotFound` after the lookup alone, leaving the store
as it was. -/
theorem UpdateUser_changes_names_only {σ : Type} (u : userService σ) (st : σ) (id : UUID)
    (firstName lastName : String) :
    (∀ user, u.userRepo.FindByID st id = .ok (some user) →
        (u.UpdateUser st id firstName lastName).calls
            = [.FindByID id, .Update (renamedRecord user firstName lastName)] ∧
          (renamedRecord user firstName lastName).ID = user.ID ∧
          (renamedRecord user firstName lastName).Username = user.Username ∧
          (renamedRecord user firstName lastName).Email = user.Email ∧
          (renamedRecord user firstName lastName).Password = user.Password ∧
          (renamedRecord user firstName lastName).Role = user.Role ∧
          (renamedRecord user firstName lastName).CreatedAt = user.CreatedAt ∧
          (firstName ≠ "" → (renamedRecord user firstName lastName).FirstName = firstName) ∧
          (firstName = "" → (renamedRecord user firstName lastName).FirstName = user.FirstName) ∧
          (lastName ≠ "" → (renamedRecord user firstName lastName).LastName = lastName) ∧
          (lastName = "" → (renamedRecord user firstName lastName).LastName = user.LastName)) ∧
      (u.userRepo.FindByID st id = .ok none →
        (u.UpdateUser st id firstName lastName).result = (none, some .ErrUserNotFound) ∧
          (u.UpdateUser st id firstName lastName).store = st ∧
          (u.UpdateUser st id firstName lastName).calls = [.FindByID id]) := by
  refine ⟨fun user hF => ?_, fun hF => ?_⟩
  · refine ⟨?_, rfl, rfl, rfl, rfl, rfl, rfl, fun h => ?_, fun h => ?_, fun h => ?_,
      fun h => ?_⟩
    · rw [UpdateUser_run_of_found u st id firstName lastName user hF]
      rcases hS : u.userRepo.Update st (renamedRecord user firstName lastName) with ⟨r, st1⟩
      cases r <;> rfl
    · simp [renamedRecord, h]
    · simp [renamedRecord, h]
    · simp [renamedRecord, h]
    · simp [renamedRecord, h]
  · simp [userService.UpdateUser, hF]

/-- C16, on the in-memory store: updating `alice` with first name `Alicia`
and an empty last name passes her record with only `FirstName` changed; an
unknown id is answered `ErrUserNotFound` without an `Update`. -/
theorem UpdateUser_changes_names_only_witness :
    (sampleUsers.UpdateUser [alice] 1 "Alicia" "").calls
        = [.FindByID 1, .Update { alice with FirstName := "Alicia" }] ∧
      (sampleUsers.UpdateUser [alice] 9 "Alicia" "").result = (none, some .ErrUserNotFound) ∧
      (sampleUsers.UpdateUser [alice] 9 "Alicia" "").calls = [.FindByID 9] :=
  ⟨by rfl,
    ((UpdateUser_changes_names_only sampleUsers [alice] 9 "Alicia" "").2 rfl).1,
    ((UpdateUser_changes_names_only sampleUsers [alice] 9 "Alicia" "").2 rfl).2.2⟩

/-! ### The guard on validated and rejected tokens -/

/-- A header of the form `"Bearer "` followed by `t` is not empty. -/
theorem bearer_header_ne_empty (t : String) : "Bearer " ++ t ≠ "" := by
  intro h
  have := congrArg String.length h
  simp at this
  exact absurd this.1 (by decide)

/-- The run of `JWTAuthMiddleware` on a header `"Bearer "` followed by `t`:
one `ValidateToken` call on `t`, whose outcome decides the rest. -/
theorem JWTAuthMiddleware_run_of_bearer (ValidateToken : String → Except Error Token)
    (uuidParse : String → Option UUID) (c : Context) (t : String)
    (hh : c.GetHeader "Authorization" = "Bearer " ++ t) :
    JWTAuthMiddleware ValidateToken uuidParse c
      = match ValidateToken t with
        | .error _ =>
          ⟨(c.JSON StatusUnauthorized [("error", .str "invalid token")]).Abort, [t]⟩
        | .ok token =>
          match token.Claims, token.Valid with
          | .servicesClaims claims, true =>
            match uuidParse claims.UserID with
            | none =>
              ⟨(c.JSON StatusUnauthorized [("error", .str "invalid user ID in token")]).Abort,
                [t]⟩
            | some userID =>
              ⟨((c.Set "userID" (.uuid userID)).Set "userRole" (.str claims.Role)).Next, [t]⟩
          | _, _ =>
            ⟨(c.JSON StatusUnauthorized [("error", .str "invalid token claims")]).Abort, [t]⟩ := by
  have hsplit := (SplitN2_bearer_iff _ t).mpr hh
  have hnonempty : c.GetHeader "Authorization" ≠ "" := by
    rw [hh]
    exact bearer_header_ne_empty t
  simp only [JWTAuthMiddleware, hnonempty, hsplit, if_false, if_true]

/-- The run of the handler `AuthHandler.ValidateToken` on a header `"Bearer "`
followed by `t`. -/
theorem AuthHandler_ValidateToken_run_of_bearer (ValidateToken : String → Except Error Token)
    (c : Context) (t : String) (hh : c.GetHeader "Authorization" = "Bearer " ++ t) :
    AuthHandler.ValidateToken ValidateToken c
      = match ValidateToken t with
        | .error _ => ⟨c.JSON StatusUnauthorized [("error", .str "invalid token")], [t]⟩
        | .ok token =>
          if !token.Valid then
            ⟨c.JSON StatusUnauthorized [("error", .str "invalid token")], [t]⟩
          else
            ⟨c.JSON StatusOK [("message", .str "token is valid")], [t]⟩ := by
  have hsplit := (SplitN2_bearer_iff _ t).mpr hh
  have hnonempty : c.GetHeader "Authorization" ≠ "" := by
    rw [hh]
    exact bearer_header_ne_empty t
  simp only [AuthHandler.ValidateToken, hnonempty, hsplit, if_false, if_true]

/-- The value stored by `Set` under a key is the one `Get` returns for it. -/
theorem Context.Get_Set_same (c : Context) (key : String) (value : Value) :
    (c.Set key value).Get key = some value := by
  simp [Context.Set, Context.Get, List.lookup]

/-- A `Set` under one key does not change what `Get` returns for another. -/
theorem Context.Get_Set_other (c : Context) (key other : String) (value : Value)
    (hne : other ≠ key) : (c.Set key value).Get other = c.Get other := by
  have hb : (other == key) = false := by simpa using hne
  simp only [Context.Set, Context.Get, List.lookup, hb]
  induction c.Keys with
  | nil => rfl
  | cons kv rest ih =>
    rcases kv with ⟨k, v⟩
    by_cases hk : k = key
    · subst hk
      simp only [List.filter, bne_self_eq_false, List.lookup, hb]
      exact ih
    · have h2 : (k != key) = true := by simpa using hk
      simp only [List.filter, h2, List.lookup]
      cases other == k with
      | true => rfl
      | false => exact ih

/-- Each way a token can be invalid makes `ValidateToken` return an error:
a string that does not parse, a declared algorithm that is unknown or outside
the HMAC family, a signature that is not the keyed hash under the secret, and
dates that the validator refuses. -/
theorem ValidateToken_failure_causes {σ : Type} (s : authService σ) (now : Time) :
    (∀ raw, s.ValidateToken now (.unparsable raw) = .error (.other "token is malformed")) ∧
      (∀ text alg claims signature, GetSigningMethod alg = none →
        s.ValidateToken now (.jws text alg claims signature)
          = .error (.other "token is unverifiable: signing method (alg) is unavailable")) ∧
      (∀ text alg claims signature method, GetSigningMethod alg = some method →
        method.isHMAC = false →
        s.ValidateToken now (.jws text alg claims signature)
          = .error (.other
              "token is unverifiable: error while executing keyfunc: unexpected signing method")) ∧
      (∀ text alg claims signature method, GetSigningMethod alg = some method →
        method.isHMAC = true → s.jwt.hmac method s.JWTSecret text ≠ signature →
        s.ValidateToken now (.jws text alg claims signature)
          = .error (.other "token signature is invalid")) ∧
      (∀ text alg claims method err, GetSigningMethod alg = some method →
        method.isHMAC = true → validateClaims now claims = some err →
        s.ValidateToken now (.jws text alg claims (s.jwt.hmac method s.JWTSecret text))
          = .error err) := by
  refine ⟨fun _ => rfl, fun text alg claims signature hm => ?_,
    fun text alg claims signature method hm hh => ?_,
    fun text alg claims signature method hm hh hsig => ?_,
    fun text alg claims method err hm hh hv => ?_⟩
  · simp only [authService.ValidateToken, ParseWithClaims, hm]
  · simp [authService.ValidateToken, ParseWithClaims, hm, hh, Error.message]
  · simp [authService.ValidateToken, ParseWithClaims, hm, hh, hsig]
  · rw [ValidateToken_signed s now text alg method claims hm hh, hv]

/-- C13: for two requests with headers `"Bearer "` followed by `t1` and `t2`
whose tokens `ValidateToken` refuses, for whatever reason and with whatever
errors `e1` and `e2`, the guard leaves both with the one response 401
`invalid token`, aborted, with `Keys` untouched and the pending handlers not
run, and the validation handler answers both with that same response. -/
theorem invalid_token_same_response {σ : Type} (s : authService σ)
    (decode : String → TokenString) (uuidParse : String → Option UUID)
    (now1 now2 : Time) (c1 c2 : Context) (t1 t2 : String) (e1 e2 : Error)
    (hh1 : c1.GetHeader "Authorization" = "Bearer " ++ t1)
    (hh2 : c2.GetHeader "Authorization" = "Bearer " ++ t2)
    (hv1 : s.ValidateToken now1 (decode t1) = .error e1)
    (hv2 : s.ValidateToken now2 (decode t2) = .error e2) :
    (JWTAuthMiddleware (fun t => s.ValidateToken now1 (decode t)) uuidParse c1).ctx
        = (c1.JSON StatusUnauthorized [("error", .str "invalid token")]).Abort ∧
      (JWTAuthMiddleware (fun t => s.ValidateToken now2 (decode t)) uuidParse c2).ctx
        = (c2.JSON StatusUnauthorized [("error", .str "invalid token")]).Abort ∧
      (JWTAuthMiddleware (fun t => s.ValidateToken now1 (decode t)) uuidParse c1).ctx.response
        = (JWTAuthMiddleware (fun t => s.ValidateToken now2 (decode t)) uuidParse c2).ctx.response ∧
      (JWTAuthMiddleware (fun t => s.ValidateToken now1 (decode t)) uuidParse c1).ctx.response
        = some ⟨401, [("error", .str "invalid token")]⟩ ∧
      (JWTAuthMiddleware (fun t => s.ValidateToken now1 (decode t)) uuidParse c1).ctx.aborted
        = true ∧
      (JWTAuthMiddleware (fun t => s.ValidateToken now2 (decode t)) uuidParse c2).ctx.aborted
        = true ∧
      (JWTAuthMiddleware (fun t => s.ValidateToken now1 (decode t)) uuidParse c1).ctx.proceeds
        = false ∧
      (JWTAuthMiddleware (fun t => s.ValidateToken now2 (decode t)) uuidParse c2).ctx.proceeds
        = false ∧
      (JWTAuthMiddleware (fun t => s.ValidateToken now1 (decode t)) uuidParse c1).ctx.Keys
        = c1.Keys ∧
      (JWTAuthMiddleware (fun t => s.ValidateToken now2 (decode t)) uuidParse c2).ctx.Keys
        = c2.Keys ∧
      (AuthHandler.ValidateToken (fun t => s.ValidateToken now1 (decode t)) c1).ctx.response
        = some ⟨401, [("error", .str "invalid token")]⟩ ∧
      (AuthHandler.ValidateToken (fun t => s.ValidateToken now2 (decode t)) c2).ctx.response
        = some ⟨401, [("error", .str "invalid token")]⟩ := by
  have g1 := JWTAuthMiddleware_run_of_bearer
    (fun t => s.ValidateToken now1 (decode t)) uuidParse c1 t1 hh1
  have g2 := JWTAuthMiddleware_run_of_bearer
    (fun t => s.ValidateToken now2 (decode t)) uuidParse c2 t2 hh2
  have a1 := AuthHandler_ValidateToken_run_of_bearer
    (fun t => s.ValidateToken now1 (decode t)) c1 t1 hh1
  have a2 := AuthHandler_ValidateToken_run_of_bearer
    (fun t => s.ValidateToken now2 (decode t)) c2 t2 hh2
  simp only [hv1] at g1 a1
  simp only [hv2] at g2 a2
  rw [g1, g2, a1, a2]
  simp [Context.JSON, Context.Abort, Context.proceeds, StatusUnauthorized]

/-- C13, on sample tokens: a token with a forged signature validated at
instant 50 and a correctly signed token validated after its expiry are refused
by the service with different errors and answered by the guard with the same
response. -/
theorem invalid_token_same_response_witness :
    sampleValidate 50 "tampered" = .error (.other "token signature is invalid") ∧
      sampleValidate 200 "good"
        = .error (.other "token has invalid claims: token is expired") ∧
      (JWTAuthMiddleware (sampleValidate 50) sampleUuidParse
          (request [("Authorization", "Bearer tampered")])).ctx.response
        = (JWTAuthMiddleware (sampleValidate 200) sampleUuidParse
          (request [("Authorization", "Bearer good")])).ctx.response ∧
      (JWTAuthMiddleware (sampleValidate 50) sampleUuidParse
          (request [("Authorization", "Bearer tampered")])).ctx.response
        = some ⟨401, [("error", .str "invalid token")]⟩ :=
  ⟨by rfl, by rfl,
    (invalid_token_same_response sampleAuth sampleDecode sampleUuidParse 50 200
      (request [("Authorization", "Bearer tampered")])
      (request [("Authorization", "Bearer good")]) "tampered" "good"
      (.other "token signature is invalid")
      (.other "token has invalid claims: token is expired") rfl rfl rfl rfl).2.2.1,
    (invalid_token_same_response sampleAuth sampleDecode sampleUuidParse 50 200
      (request [("Authorization", "Bearer tampered")])
      (request [("Authorization", "Bearer good")]) "tampered" "good"
      (.other "token signature is invalid")
      (.other "token has invalid claims: token is expired") rfl rfl rfl rfl).2.2.2.1⟩

/-- C15: on a header `"Bearer "` followed by `t`, when `ValidateToken` accepts
`t` with claims of the service and a valid token, then (a) if the `UserID` claim
does not parse as an identifier the guard answers 401 `invalid user ID in token`,
aborts, does not run the pending handlers and leaves `Keys` untouched; (b) if
it parses, the guard writes no response, stores the parsed id under `userID`
and the token's role under `userRole`, and calls `Next`. -/
theorem JWTAuthMiddleware_subject_id (ValidateToken : String → Except Error Token)
    (uuidParse : String → Option UUID) (c : Context) (t : String) (token : Token)
    (claims : Claims)
    (hh : c.GetHeader "Authorization" = "Bearer " ++ t)
    (hv : ValidateToken t = .ok token)
    (hc : token.Claims = .servicesClaims claims) (hvalid : token.Valid = true) :
    (uuidParse claims.UserID = none →
        (JWTAuthMiddleware ValidateToken uuidParse c).ctx
            = (c.JSON StatusUnauthorized [("error", .str "invalid user ID in token")]).Abort ∧
          (JWTAuthMiddleware ValidateToken uuidParse c).ctx.response
            = some ⟨401, [("error", .str "invalid user ID in token")]⟩ ∧
          (JWTAuthMiddleware ValidateToken uuidParse c).ctx.aborted = true ∧
          (JWTAuthMiddleware ValidateToken uuidParse c).ctx.proceeds = false ∧
          (JWTAuthMiddleware ValidateToken uuidParse c).ctx.Keys = c.Keys) ∧
      (∀ userID, uuidParse claims.UserID = some userID →
        (JWTAuthMiddleware ValidateToken uuidParse c).ctx
            = ((c.Set "userID" (.uuid userID)).Set "userRole" (.str claims.Role)).Next ∧
          (JWTAuthMiddleware ValidateToken uuidParse c).ctx.Get "userID"
            = some (.uuid userID) ∧
          (JWTAuthMiddleware ValidateToken uuidParse c).ctx.Get "userRole"
            = some (.str claims.Role) ∧
          (JWTAuthMiddleware ValidateToken uuidParse c).ctx.response = c.response ∧
          (c.aborted = false →
            (JWTAuthMiddleware ValidateToken uuidParse c).ctx.proceeds = true)) := by
  have g := JWTAuthMiddleware_run_of_bearer ValidateToken uuidParse c t hh
  simp only [hv, hc, hvalid] at g
  refine ⟨fun hp => ?_, fun userID hp => ?_⟩
  · simp only [hp] at g
    rw [g]
    simp [Context.JSON, Context.Abort, Context.proceeds, StatusUnauthorized]
  · simp only [hp] at g
    rw [g]
    refine ⟨rfl, ?_, ?_, rfl, fun hab => ?_⟩
    · show ((c.Set "userID" (.uuid userID)).Set "userRole" (.str claims.Role)).Get "userID" = _
      rw [Context.Get_Set_other _ "userRole" "userID" _ (by decide), Context.Get_Set_same]
    · show ((c.Set "userID" (.uuid userID)).Set "userRole" (.str claims.Role)).Get "userRole" = _
      rw [Context.Get_Set_same]
    · simp [Context.proceeds, Context.Next, Context.Set, hab]

/-- C15, on sample tokens validated at instant 50: the correctly signed token
whose subject is `not-a-uuid` is answered 401 and sets nothing; the correctly
signed token whose subject is `1` stores the id 1 and the role `admin` and
proceeds. -/
theorem JWTAuthMiddleware_subject_id_witness :
    (∃ token, sampleValidate 50 "badsubject" = .ok token) ∧
      (JWTAuthMiddleware (sampleValidate 50) sampleUuidParse
          (request [("Authorization", "Bearer badsubject")])).ctx
        = ((request [("Authorization", "Bearer badsubject")]).JSON 401
            [("error", .str "invalid user ID in token")]).Abort ∧
      (JWTAuthMiddleware (sampleValidate 50) sampleUuidParse
          (request [("Authorization", "Bearer good")])).ctx.Keys
        = [("userRole", .str "admin"), ("userID", .uuid 1)] ∧
      (JWTAuthMiddleware (sampleValidate 50) sampleUuidParse
          (request [("Authorization", "Bearer good")])).ctx.proceeds = true :=
  ⟨⟨_, rfl⟩,
    ((JWTAuthMiddleware_subject_id (sampleValidate 50) sampleUuidParse
      (request [("Authorization", "Bearer badsubject")]) "badsubject" _ badSubjectClaims
      rfl rfl rfl rfl).1 rfl).1,
    by rfl, by rfl⟩

/-! ### Password change and later logins -/

/-- The stand-in hasher has the two properties the specification asks of a
hasher: a secret verifies against its own hash, and no other secret does. -/
theorem sampleBcrypt_laws :
    (∀ s h, sampleBcrypt.GenerateFromPassword s = .ok h →
        sampleBcrypt.CompareHashAndPassword h s = none) ∧
      (∀ s1 s2 h, s1 ≠ s2 → sampleBcrypt.GenerateFromPassword s2 = .ok h →
        sampleBcrypt.CompareHashAndPassword h s1 ≠ none) := by
  constructor
  · intro s h hg
    simp only [sampleBcrypt, Except.ok.injEq] at hg
    simp [sampleBcrypt, hg]
  · intro s1 s2 h hne hg
    simp only [sampleBcrypt, Except.ok.injEq] at hg
    have hdiff : ¬ (h = "hash:" ++ s1) := by
      intro heq
      rw [← hg] at heq
      have hd := congrArg String.data heq
      simp only [String.data_append] at hd
      exact hne (String.ext (List.append_cancel_left hd)).symm
    simp [sampleBcrypt, hdiff]

/-- The run of `ChangePassword` once the record is found, the old password
passes the check and hashing the new one succeeds: one `Update` call on the
record with the new hash, whose outcome decides the result. -/
theorem ChangePassword_run_of_verified {σ : Type} (u : userService σ) (st : σ) (id : UUID)
    (oldPassword newPassword hashed : String) (user : User)
    (hF : u.userRepo.FindByID st id = .ok (some user))
    (hold : user.CheckPassword u.bcrypt oldPassword = true)
    (hH : u.bcrypt.GenerateFromPassword newPassword = .ok hashed) :
    u.ChangePassword st id oldPassword newPassword
      = match u.userRepo.Update st { user with Password := hashed } with
        | (.error err, st1) =>
          ⟨some err, st1, [.FindByID id, .Update { user with Password := hashed }]⟩
        | (.ok _, st1) =>
          ⟨none, st1, [.FindByID id, .Update { user with Password := hashed }]⟩ := by
  simp only [userService.ChangePassword, hF, hold, User.HashPassword, hH]
  rfl

/-- The hasher that refuses long secrets also has the two properties: a
secret verifies against its own hash, and no other secret does. -/
theorem limitedBcrypt_laws :
    (∀ s h, limitedBcrypt.GenerateFromPassword s = .ok h →
        limitedBcrypt.CompareHashAndPassword h s = none) ∧
      (∀ s1 s2 h, s1 ≠ s2 → limitedBcrypt.GenerateFromPassword s2 = .ok h →
        limitedBcrypt.CompareHashAndPassword h s1 ≠ none) := by
  constructor
  · intro s h hg
    simp only [limitedBcrypt] at hg
    split_ifs at hg
    simp only [Except.ok.injEq] at hg
    simp [limitedBcrypt, hg]
  · intro s1 s2 h hne hg
    simp only [limitedBcrypt] at hg
    split_ifs at hg
    simp only [Except.ok.injEq] at hg
    have hdiff : ¬ (h = "hash:" ++ s1) := by
      intro heq
      rw [← hg] at heq
      have hd := congrArg String.data heq
      simp only [String.data_append] at hd
      exact hne (String.ext (List.append_cancel_left hd)).symm
    simp [limitedBcrypt, hdiff]

/-- C11 (counterexample): with a hasher that has both properties and a store
that does not fail, (a) `alice` changes her password from `secret1` to the same
`secret1`; the change succeeds and a later login with the old secret succeeds
instead of returning `ErrInvalidCredentials`; (b) `erin`, whose username
`erin@x.com` is the email of `frank`, changes her password to `pw-new`; the
change succeeds and a later login with her username and the new secret
returns `ErrInvalidCredentials`, because the email lookup finds `frank`, while
the login with her email succeeds; (c) with a hasher that has both properties
and refuses secrets of more than 72 characters, `alice`, whose old secret
verifies, asks for a new secret of 73 characters; `ChangePassword` returns the
hashing error after the lookup alone and the store keeps her old hash. -/
theorem Login_after_ChangePassword_counterexamples :
    ((sampleUsers.ChangePassword [alice] 1 "secret1" "secret1").result = none ∧
        (sampleAuth.Login (fixedClock 7)
            (sampleUsers.ChangePassword [alice] 1 "secret1" "secret1").store
            "alice" "secret1").result.2
          = (some alice.ToUserResponse, none)) ∧
      ((sampleUsers.ChangePassword [erin, frank] 4 "pw-erin" "pw-new").result = none ∧
        (sampleAuth.Login (fixedClock 7)
            (sampleUsers.ChangePassword [erin, frank] 4 "pw-erin" "pw-new").store
            "erin@x.com" "pw-new").result
          = (emptyToken, none, some .ErrInvalidCredentials) ∧
        (sampleAuth.Login (fixedClock 7)
            (sampleUsers.ChangePassword [erin, frank] 4 "pw-erin" "pw-new").store
            "erin@mail.com" "pw-new").result.2
          = (some erin.ToUserResponse, none)) ∧
      ((∀ s h, limitedBcrypt.GenerateFromPassword s = .ok h →
          limitedBcrypt.CompareHashAndPassword h s = none) ∧
        (∀ s1 s2 h, s1 ≠ s2 → limitedBcrypt.GenerateFromPassword s2 = .ok h →
          limitedBcrypt.CompareHashAndPassword h s1 ≠ none) ∧
        alice.CheckPassword limitedBcrypt "secret1" = true ∧
        "secret1" ≠ longSecret ∧
        (limitedUsers.ChangePassword [alice] 1 "secret1" longSecret).result
          = some (.other "bcrypt: password length exceeds 72 bytes") ∧
        (limitedUsers.ChangePassword [alice] 1 "secret1" longSecret).calls = [.FindByID 1] ∧
        (limitedUsers.ChangePassword [alice] 1 "secret1" longSecret).store = [alice]) := by
  refine ⟨⟨by rfl, by rfl⟩, ⟨by rfl, by rfl, by rfl⟩,
    limitedBcrypt_laws.1, limitedBcrypt_laws.2, by rfl, by decide, by rfl, by rfl, by rfl⟩

/-- C11 (amended): for a hasher under which a secret verifies against its own
hash and no other secret does, a stored user whose old secret verifies, a new
secret different from the old one whose hashing succeeds, and a store that
accepts the update and afterwards returns the updated record (carrying the new
hash) for the user's email: `ChangePassword` succeeds, the later login with the
email and the new secret succeeds, and the login with the email and the old
secret returns `ErrInvalidCredentials`.  When in addition the lookups for the
user's username yield the updated record, either through the email lookup or,
no record having that username as its email, through the username lookup, the
login with the username and the new secret succeeds and the one with the old
secret returns `ErrInvalidCredentials`. -/
theorem ChangePassword_then_Login {σ : Type} (a : authService σ) (clock : Nat → Time)
    (st st1 : σ) (id : UUID) (oldPassword newPassword hashed : String)
    (user saved stored : User)
    (hverify : ∀ s h, a.bcrypt.GenerateFromPassword s = .ok h →
      a.bcrypt.CompareHashAndPassword h s = none)
    (hreject : ∀ s1 s2 h, s1 ≠ s2 → a.bcrypt.GenerateFromPassword s2 = .ok h →
      a.bcrypt.CompareHashAndPassword h s1 ≠ none)
    (hfind : a.userRepo.FindByID st id = .ok (some user))
    (hold : user.CheckPassword a.bcrypt oldPassword = true)
    (hne : oldPassword ≠ newPassword)
    (hhash : a.bcrypt.GenerateFromPassword newPassword = .ok hashed)
    (hupdate : a.userRepo.Update st { user with Password := hashed } = (.ok saved, st1))
    (hstored : stored.Password = hashed)
    (hemail : a.userRepo.FindByEmail st1 user.Email = .ok (some stored)) :
    (a.users.ChangePassword st id oldPassword newPassword).result = none ∧
      (a.users.ChangePassword st id oldPassword newPassword).store = st1 ∧
      (a.users.ChangePassword st id oldPassword newPassword).calls
        = [.FindByID id, .Update { user with Password := hashed }] ∧
      (a.Login clock st1 user.Email newPassword).result.2
        = (some stored.ToUserResponse, none) ∧
      (a.Login clock st1 user.Email oldPassword).result
        = (emptyToken, none, some .ErrInvalidCredentials) ∧
      ((a.userRepo.FindByEmail st1 user.Username = .ok (some stored) ∨
          (a.userRepo.FindByEmail st1 user.Username = .ok none ∧
            a.userRepo.FindByUsername st1 user.Username = .ok (some stored))) →
        (a.Login clock st1 user.Username newPassword).result.2
            = (some stored.ToUserResponse, none) ∧
          (a.Login clock st1 user.Username oldPassword).result
            = (emptyToken, none, some .ErrInvalidCredentials)) := by
  have hnew : stored.CheckPassword a.bcrypt newPassword = true := by
    simp [User.CheckPassword, hstored, hverify newPassword hashed hhash]
  have hbad : stored.CheckPassword a.bcrypt oldPassword = false := by
    have := hreject oldPassword newPassword hashed hne hhash
    cases hc : a.bcrypt.CompareHashAndPassword hashed oldPassword with
    | none => exact absurd hc this
    | some err => simp [User.CheckPassword, hstored, hc]
  have hrun := ChangePassword_run_of_verified a.users st id oldPassword newPassword hashed
    user hfind hold hhash
  have hupdate1 : a.users.userRepo.Update st { user with Password := hashed } = (.ok saved, st1) :=
    hupdate
  rw [hupdate1] at hrun
  refine ⟨by rw [hrun], by rw [hrun], by rw [hrun], ?_, ?_, fun husername => ⟨?_, ?_⟩⟩
  · rw [Login_result_of_found a clock st1 user.Email newPassword stored (Or.inl hemail),
      loginWith_success a clock stored newPassword hnew]
  · rw [Login_result_of_found a clock st1 user.Email oldPassword stored (Or.inl hemail)]
    simp [authService.loginWith, hbad]
  · rw [Login_result_of_found a clock st1 user.Username newPassword stored husername,
      loginWith_success a clock stored newPassword hnew]
  · rw [Login_result_of_found a clock st1 user.Username oldPassword stored husername]
    simp [authService.loginWith, hbad]

/-- C11 (amended), on the in-memory store: `alice` changes her password from
`secret1` to `secret2`; afterwards `secret2` logs her in by email and by
username and `secret1` is refused.  On the store where the username of `erin`
is the email of `frank`, `erin` changes her password from `pw-erin` to
`pw-new`; afterwards `pw-new` logs her in by email and `pw-erin` is refused. -/
theorem ChangePassword_then_Login_witness :
    ("secret1" ≠ "secret2") ∧
      (sampleAuth.users.ChangePassword [alice] 1 "secret1" "secret2").result = none ∧
      (sampleAuth.Login (fixedClock 7) [{ alice with Password := "hash:secret2" }]
          "alice@x.com" "secret2").result.2
        = (some ({ alice with Password := "hash:secret2" }).ToUserResponse, none) ∧
      (sampleAuth.Login (fixedClock 7) [{ alice with Password := "hash:secret2" }]
          "alice" "secret2").result.2
        = (some ({ alice with Password := "hash:secret2" }).ToUserResponse, none) ∧
      (sampleAuth.Login (fixedClock 7) [{ alice with Password := "hash:secret2" }]
          "alice" "secret1").result
        = (emptyToken, none, some .ErrInvalidCredentials) ∧
      (sampleAuth.users.ChangePassword [erin, frank] 4 "pw-erin" "pw-new").result = none ∧
      (sampleAuth.Login (fixedClock 7) [{ erin with Password := "hash:pw-new" }, frank]
          "erin@mail.com" "pw-new").result.2
        = (some ({ erin with Password := "hash:pw-new" }).ToUserResponse, none) ∧
      (sampleAuth.Login (fixedClock 7) [{ erin with Password := "hash:pw-new" }, frank]
          "erin@mail.com" "pw-erin").result
        = (emptyToken, none, some .ErrInvalidCredentials) :=
  ⟨by decide,
    (ChangePassword_then_Login sampleAuth (fixedClock 7) [alice]
      [{ alice with Password := "hash:secret2" }] 1 "secret1" "secret2" "hash:secret2"
      alice { alice with Password := "hash:secret2" } { alice with Password := "hash:secret2" }
      sampleBcrypt_laws.1 sampleBcrypt_laws.2 rfl (by decide) (by decide) rfl rfl rfl rfl).1,
    (ChangePassword_then_Login sampleAuth (fixedClock 7) [alice]
      [{ alice with Password := "hash:secret2" }] 1 "secret1" "secret2" "hash:secret2"
      alice { alice with Password := "hash:secret2" } { alice with Password := "hash:secret2" }
      sampleBcrypt_laws.1 sampleBcrypt_laws.2 rfl (by decide) (by decide) rfl rfl rfl
      rfl).2.2.2.1,
    ((ChangePassword_then_Login sampleAuth (fixedClock 7) [alice]
      [{ alice with Password := "hash:secret2" }] 1 "secret1" "secret2" "hash:secret2"
      alice { alice with Password := "hash:secret2" } { alice with Password := "hash:secret2" }
      sampleBcrypt_laws.1 sampleBcrypt_laws.2 rfl (by decide) (by decide) rfl rfl rfl
      rfl).2.2.2.2.2 (Or.inr ⟨rfl, rfl⟩)).1,
    ((ChangePassword_then_Login sampleAuth (fixedClock 7) [alice]
      [{ alice with Password := "hash:secret2" }] 1 "secret1" "secret2" "hash:secret2"
      alice { alice with Password := "hash:secret2" } { alice with Password := "hash:secret2" }
      sampleBcrypt_laws.1 sampleBcrypt_laws.2 rfl (by decide) (by decide) rfl rfl rfl
      rfl).2.2.2.2.2 (Or.inr ⟨rfl, rfl⟩)).2,
    (ChangePassword_then_Login sampleAuth (fixedClock 7) [erin, frank]
      [{ erin with Password := "hash:pw-new" }, frank] 4 "pw-erin" "pw-new" "hash:pw-new"
      erin { erin with Password := "hash:pw-new" } { erin with Password := "hash:pw-new" }
      sampleBcrypt_laws.1 sampleBcrypt_laws.2 rfl (by decide) (by decide) rfl rfl rfl rfl).1,
    (ChangePassword_then_Login sampleAuth (fixedClock 7) [erin, frank]
      [{ erin with Password := "hash:pw-new" }, frank] 4 "pw-erin" "pw-new" "hash:pw-new"
      erin { erin with Password := "hash:pw-new" } { erin with Password := "hash:pw-new" }
      sampleBcrypt_laws.1 sampleBcrypt_laws.2 rfl (by decide) (by decide) rfl rfl rfl
      rfl).2.2.2.1,
    (ChangePassword_then_Login sampleAuth (fixedClock 7) [erin, frank]
      [{ erin with Password := "hash:pw-new" }, frank] 4 "pw-erin" "pw-new" "hash:pw-new"
      erin { erin with Password := "hash:pw-new" } { erin with Password := "hash:pw-new" }
      sampleBcrypt_laws.1 sampleBcrypt_laws.2 rfl (by decide) (by decide) rfl rfl rfl
      rfl).2.2.2.2.1⟩

end DemoLogin
